import Mathlib

/-!
Shallow embedding of the report analytics engine of the `financial_bot`
repository (`internal/service/expense_tracker.go`).

Modelling conventions:

* Go `float64` amounts are modelled as rationals (`ℚ`); the source performs
  only field arithmetic, so value-level claims are settled exactly.
* Timestamps (`time.Time`) are modelled as integer nanoseconds since an
  arbitrary epoch in a fixed-offset location; `nsPerDay` is one calendar day.
  `Format("2006-01-02")` day bucketing becomes floor division by `nsPerDay`.
* The single place where Go float semantics produces a non-finite value is
  `calculateTrendPercent`: when `current = 0` and `previous ≠ 0` the
  magnitude-decrease branch computes `((|previous| - 0) / 0) * 100 = +Inf`
  and returns its negation `-Inf`.  Rationals have no infinities, so the
  function returns a `TrendVal`: either a finite rational or `negInf`.
  (That branch is the only possible source of a non-finite result: both
  other divisions have nonzero denominators, and the `+Inf` numerator
  `|previous| - |current|` is strictly positive there, so no NaN arises.)
-/

namespace FinBot

/-- One calendar day in nanoseconds (`24 * time.Hour`). -/
def nsPerDay : ℤ := 86400000000000

/-- `model.Transaction`, restricted to the fields the analytics engine reads. -/
structure Transaction where
  categoryID : String
  amount : ℚ
  date : ℤ
  description : String
deriving DecidableEq

/-- `model.Category`, restricted to the fields the analytics engine reads. -/
structure Category where
  id : String
  name : String
  type : String
deriving DecidableEq

/-- Value of a Go `float64` percent figure as produced by
`calculateTrendPercent`: either finite or `-Inf` (see module comment). -/
inductive TrendVal where
  | negInf : TrendVal
  | fin : ℚ → TrendVal
deriving DecidableEq

/-- Go `<` on the values `calculateTrendPercent` can produce
(`-Inf < q` for every finite `q`; `-Inf < -Inf` is false). -/
def TrendVal.ltb : TrendVal → TrendVal → Bool
  | .negInf, .negInf => false
  | .negInf, .fin _ => true
  | .fin _, .negInf => false
  | .fin a, .fin b => decide (a < b)

/-- `calculateTrendPercent` (expense_tracker.go:313-335).  The inner
`current = 0` split makes the Go float division by `|current| = 0`
explicit: its result is `-Inf`, everything else is finite. -/
def calculateTrendPercent (current previous : ℚ) : TrendVal :=
  if previous = 0 then
    if 0 < current then .fin 100 else .fin 0
  else if (current < 0 ∧ 0 < previous) ∨ (0 < current ∧ previous < 0) then
    .fin (-100)
  else if |current| < |previous| then
    if current = 0 then .negInf
    else .fin (-(((|previous| - |current|) / |current|) * 100))
  else
    .fin (((|current| - |previous|) / |previous|) * 100)

/-- `math.Max(math.Min(change, 200), -100)` as applied to a
`calculateTrendPercent` result (expense_tracker.go:855); in Go
`math.Min(-Inf, 200) = -Inf` and `math.Max(-Inf, -100) = -100`. -/
def clampTrend : TrendVal → ℚ
  | .negInf => -100
  | .fin q => max (min q 200) (-100)

/-- C1: `calculateTrendPercent` returns 100 when `previous = 0 < current`;
0 when `previous = 0` and `current ≤ 0`; -100 on strictly opposite signs;
`-(((|previous| - |current|) / |current|) * 100)` (the documented
divide-by-current quirk) when the signs do not oppose and
`|current| < |previous|` (`-Inf` at `current = 0`, where the quirk formula
itself is an infinite float); `((|current| - |previous|) / |previous|) * 100`
when `|current| ≥ |previous|`; and in particular 0 on equal nonzero
arguments. -/
theorem calculateTrendPercent_cases (c p : ℚ) :
    (p = 0 → 0 < c → calculateTrendPercent c p = .fin 100) ∧
    (p = 0 → c ≤ 0 → calculateTrendPercent c p = .fin 0) ∧
    ((c < 0 ∧ 0 < p) ∨ (0 < c ∧ p < 0) → calculateTrendPercent c p = .fin (-100)) ∧
    (p ≠ 0 → ¬((c < 0 ∧ 0 < p) ∨ (0 < c ∧ p < 0)) → |c| < |p| → c ≠ 0 →
      calculateTrendPercent c p = .fin (-(((|p| - |c|) / |c|) * 100))) ∧
    (p ≠ 0 → ¬((c < 0 ∧ 0 < p) ∨ (0 < c ∧ p < 0)) → |c| = 0 → |c| < |p| →
      calculateTrendPercent c p = .negInf) ∧
    (p ≠ 0 → ¬((c < 0 ∧ 0 < p) ∨ (0 < c ∧ p < 0)) → |p| ≤ |c| →
      calculateTrendPercent c p = .fin (((|c| - |p|) / |p|) * 100)) ∧
    (c ≠ 0 → calculateTrendPercent c c = .fin 0) := by
  refine ⟨?_, ?_, ?_, ?_, ?_, ?_, ?_⟩
  · intro hp hc
    simp [calculateTrendPercent, hp, hc]
  · intro hp hc
    simp [calculateTrendPercent, hp, not_lt.mpr hc]
  · intro hopp
    have hp : ¬(p = 0) := by
      rcases hopp with ⟨_, h⟩ | ⟨_, h⟩ <;> exact fun he => by simp [he] at h
    simp [calculateTrendPercent, hp, hopp]
  · intro hp hopp hlt hc
    simp [calculateTrendPercent, hp, hopp, hlt, hc]
  · intro hp hopp hc hlt
    have hc0 : c = 0 := abs_eq_zero.mp hc
    simp [calculateTrendPercent, hp, hopp, hlt, hc0]
  · intro hp hopp hge
    simp [calculateTrendPercent, hp, hopp, not_lt.mpr hge]
  · intro hc
    have hopp : ¬((c < 0 ∧ 0 < c) ∨ (0 < c ∧ c < 0)) := by
      rintro (⟨h1, h2⟩ | ⟨h1, h2⟩) <;> exact absurd h2 (not_lt.mpr h1.le)
    simp [calculateTrendPercent, hc, hopp]

/-- Witness for C1 at concrete inputs: the sign-flip branch at `(-3, 5)`. -/
theorem calculateTrendPercent_cases_witness :
    (((-3 : ℚ) < 0 ∧ (0 : ℚ) < 5) ∨ ((0 : ℚ) < -3 ∧ (5 : ℚ) < 0)) ∧
    calculateTrendPercent (-3) 5 = .fin (-100) :=
  ⟨Or.inl ⟨by norm_num, by norm_num⟩,
    (calculateTrendPercent_cases (-3) 5).2.2.1 (Or.inl ⟨by norm_num, by norm_num⟩)⟩

/-- C2 counterexample: `calculateTrendPercent 0 5` is not finite — the
magnitude-decrease branch divides `|previous| - |current| = 5` by
`|current| = 0`, so the Go code returns `-Inf`.  This is exactly the
`current = 0, previous ≠ 0` case the claim asserts is guarded. -/
theorem calculateTrendPercent_zero_current_not_finite :
    calculateTrendPercent 0 5 = .negInf ∧ ∀ q : ℚ, calculateTrendPercent 0 5 ≠ .fin q := by
  constructor
  · rfl
  · intro q h
    simp [calculateTrendPercent] at h

/-- C2 amended: `calculateTrendPercent` is finite except exactly when
`current = 0` and `previous ≠ 0`, where the decrease branch divides by
`|current| = 0` and yields `-Inf` (the case hit by every zero-activity day
measured against a nonzero per-day average). -/
theorem calculateTrendPercent_negInf_iff (c p : ℚ) :
    calculateTrendPercent c p = .negInf ↔ (c = 0 ∧ p ≠ 0) := by
  constructor
  · intro h
    by_cases hp : p = 0
    · by_cases hc : 0 < c <;> simp [calculateTrendPercent, hp, hc] at h
    · by_cases hopp : (c < 0 ∧ 0 < p) ∨ (0 < c ∧ p < 0)
      · simp [calculateTrendPercent, hp, hopp] at h
      · by_cases hlt : |c| < |p|
        · by_cases hc : c = 0
          · exact ⟨hc, hp⟩
          · simp [calculateTrendPercent, hp, hopp, hlt, hc] at h
        · simp [calculateTrendPercent, hp, hopp, hlt] at h
  · rintro ⟨hc, hp⟩
    have hlt : |c| < |p| := by
      rw [hc]
      simpa using abs_pos.mpr hp
    have hopp : ¬((c < 0 ∧ 0 < p) ∨ (0 < c ∧ p < 0)) := by
      rw [hc]
      rintro (⟨h1, _⟩ | ⟨h1, _⟩) <;> exact absurd h1 (lt_irrefl 0)
    simp [calculateTrendPercent, hp, hopp, hlt, hc]

/-- The in-window test `!t.Date.Before(start) && !t.Date.After(end)` used by
every aggregation loop (expense_tracker.go:566, 653, 673, 819, 839). -/
def inWindow (s e : ℤ) (t : Transaction) : Bool :=
  !decide (t.date < s) && !decide (e < t.date)

/-- Sum of the positive amounts of the in-window transactions (the
`t.Amount > 0` accumulation branch of the period loops). -/
def totalIncomeIn (txns : List Transaction) (s e : ℤ) : ℚ :=
  ((txns.filter fun t => inWindow s e t && decide (0 < t.amount)).map (·.amount)).sum

/-- Sum of the negated amounts of the in-window transactions that fall into
the `else` (expense) branch of the period loops, i.e. those with
`¬ 0 < amount`. -/
def totalExpenseIn (txns : List Transaction) (s e : ℤ) : ℚ :=
  ((txns.filter fun t => inWindow s e t && !decide (0 < t.amount)).map (fun t => -t.amount)).sum

/-- `prevPeriodEnd := report.StartDate.Add(-time.Nanosecond)`
(expense_tracker.go:834). -/
def prevWindowEnd (s : ℤ) : ℤ := s - 1

/-- `prevPeriodStart := prevPeriodEnd.Add(-periodDuration).Add(time.Nanosecond)`
(expense_tracker.go:835). -/
def prevWindowStart (s e : ℤ) : ℤ := (s - 1) - (e - s) + 1

/-- The period-comparison block of `fillTrendAnalytics`
(expense_tracker.go:810-867), flattened into one record. -/
structure PeriodComparisonR where
  curTotalIncome : ℚ
  curTotalExpenses : ℚ
  curBalance : ℚ
  curDailyAvgIncome : ℚ
  curDailyAvgExpense : ℚ
  prevTotalIncome : ℚ
  prevTotalExpenses : ℚ
  prevBalance : ℚ
  prevDailyAvgIncome : ℚ
  prevDailyAvgExpense : ℚ
  expenseChange : ℚ
  incomeChange : ℚ
  balanceChange : ℚ
deriving DecidableEq

/-- The period-comparison computation of `fillTrendAnalytics`
(expense_tracker.go:810-867): `days` is the raw fractional duration
`EndDate.Sub(StartDate).Hours() / 24` clamped below at 1; each percent
change is computed and clamped only under its baseline guard
(`prevExpenses > 0`, `prevIncome > 0`, `prevBalance != 0`), otherwise the
field keeps its Go zero value 0. -/
def periodComparison (currentTransactions prevTransactions : List Transaction)
    (startDate endDate : ℤ) : PeriodComparisonR :=
  let days0 : ℚ := ((endDate - startDate : ℤ) : ℚ) / ((nsPerDay : ℤ) : ℚ)
  let days : ℚ := if days0 < 1 then 1 else days0
  let cI := totalIncomeIn currentTransactions startDate endDate
  let cE := totalExpenseIn currentTransactions startDate endDate
  let pI := totalIncomeIn prevTransactions (prevWindowStart startDate endDate) (prevWindowEnd startDate)
  let pE := totalExpenseIn prevTransactions (prevWindowStart startDate endDate) (prevWindowEnd startDate)
  let pB := pI - pE
  { curTotalIncome := cI
    curTotalExpenses := cE
    curBalance := cI - cE
    curDailyAvgIncome := cI / days
    curDailyAvgExpense := cE / days
    prevTotalIncome := pI
    prevTotalExpenses := pE
    prevBalance := pB
    prevDailyAvgIncome := pI / days
    prevDailyAvgExpense := pE / days
    expenseChange := if 0 < pE then clampTrend (calculateTrendPercent cE pE) else 0
    incomeChange := if 0 < pI then clampTrend (calculateTrendPercent cI pI) else 0
    balanceChange := if pB ≠ 0 then clampTrend (calculateTrendPercent (cI - cE) pB) else 0 }

/-- `clampTrend` always lands in `[-100, 200]`. -/
theorem clampTrend_bounds (v : TrendVal) : -100 ≤ clampTrend v ∧ clampTrend v ≤ 200 := by
  cases v with
  | negInf => exact ⟨le_refl _, by norm_num [clampTrend]⟩
  | fin q =>
    refine ⟨le_max_right _ _, ?_⟩
    simp only [clampTrend]
    exact max_le (min_le_right q 200) (by norm_num)

/-- Unfolding of the `CurrentPeriod.DailyAvgIncome` field: the divisor is
the raw fractional duration clamped below at 1, exactly as in the source. -/
theorem periodComparison_curDailyAvgIncome (curTx prevTx : List Transaction) (s e : ℤ) :
    (periodComparison curTx prevTx s e).curDailyAvgIncome =
      totalIncomeIn curTx s e /
        (if ((e - s : ℤ) : ℚ) / ((nsPerDay : ℤ) : ℚ) < 1 then 1
         else ((e - s : ℤ) : ℚ) / ((nsPerDay : ℤ) : ℚ)) := rfl

/-- Unfolding of the `CurrentPeriod.DailyAvgExpense` field. -/
theorem periodComparison_curDailyAvgExpense (curTx prevTx : List Transaction) (s e : ℤ) :
    (periodComparison curTx prevTx s e).curDailyAvgExpense =
      totalExpenseIn curTx s e /
        (if ((e - s : ℤ) : ℚ) / ((nsPerDay : ℤ) : ℚ) < 1 then 1
         else ((e - s : ℤ) : ℚ) / ((nsPerDay : ℤ) : ℚ)) := rfl

/-- Unfolding of the `PrevPeriod.DailyAvgIncome` field. -/
theorem periodComparison_prevDailyAvgIncome (curTx prevTx : List Transaction) (s e : ℤ) :
    (periodComparison curTx prevTx s e).prevDailyAvgIncome =
      totalIncomeIn prevTx (prevWindowStart s e) (prevWindowEnd s) /
        (if ((e - s : ℤ) : ℚ) / ((nsPerDay : ℤ) : ℚ) < 1 then 1
         else ((e - s : ℤ) : ℚ) / ((nsPerDay : ℤ) : ℚ)) := rfl

/-- Unfolding of the `PrevPeriod.DailyAvgExpense` field. -/
theorem periodComparison_prevDailyAvgExpense (curTx prevTx : List Transaction) (s e : ℤ) :
    (periodComparison curTx prevTx s e).prevDailyAvgExpense =
      totalExpenseIn prevTx (prevWindowStart s e) (prevWindowEnd s) /
        (if ((e - s : ℤ) : ℚ) / ((nsPerDay : ℤ) : ℚ) < 1 then 1
         else ((e - s : ℤ) : ℚ) / ((nsPerDay : ℤ) : ℚ)) := rfl

/-- C3 counterexample: previous-period expense total 0 and current-period
expense total 200, yet the stored `ExpenseChange` is 0, not the claimed 100:
the assignment is guarded by `prevPeriod.TotalExpenses > 0`, so a zero
baseline leaves the Go zero value in place. -/
theorem periodComparison_zero_baseline_counterexample :
    (periodComparison [⟨"food", -200, 0, ""⟩] [] 0 (nsPerDay - 1)).prevTotalExpenses = 0 ∧
    (periodComparison [⟨"food", -200, 0, ""⟩] [] 0 (nsPerDay - 1)).curTotalExpenses = 200 ∧
    (periodComparison [⟨"food", -200, 0, ""⟩] [] 0 (nsPerDay - 1)).expenseChange = 0 ∧
    ((0 : ℚ) = 100 → False) := by
  have hCE : totalExpenseIn [⟨"food", -200, 0, ""⟩] 0 (nsPerDay - 1) = 200 := by
    norm_num [totalExpenseIn, inWindow, nsPerDay, List.filter_cons]
  refine ⟨by decide, hCE, ?_, by norm_num⟩
  show (if 0 < totalExpenseIn [] (prevWindowStart 0 (nsPerDay - 1)) (prevWindowEnd 0) then
      clampTrend (calculateTrendPercent
        (totalExpenseIn [⟨"food", -200, 0, ""⟩] 0 (nsPerDay - 1))
        (totalExpenseIn [] (prevWindowStart 0 (nsPerDay - 1)) (prevWindowEnd 0)))
    else 0) = 0
  norm_num [totalExpenseIn]

/-- C3 amended: when the previous period's expense (resp. income) total is
0, the stored `ExpenseChange` (resp. `IncomeChange`) is 0 — the guarded
assignment is skipped, so the §4.4 zero-baseline growth cap of 100 never
reaches `PeriodComparison`. -/
theorem periodComparison_zero_baseline_amended (curTx prevTx : List Transaction) (s e : ℤ) :
    ((periodComparison curTx prevTx s e).prevTotalExpenses = 0 →
      (periodComparison curTx prevTx s e).expenseChange = 0) ∧
    ((periodComparison curTx prevTx s e).prevTotalIncome = 0 →
      (periodComparison curTx prevTx s e).incomeChange = 0) := by
  constructor
  · intro h
    have h' : totalExpenseIn prevTx (prevWindowStart s e) (prevWindowEnd s) = 0 := h
    simp [periodComparison, h']
  · intro h
    have h' : totalIncomeIn prevTx (prevWindowStart s e) (prevWindowEnd s) = 0 := h
    simp [periodComparison, h']

/-- Witness for C3's amended theorem at a concrete input. -/
theorem periodComparison_zero_baseline_amended_witness :
    (periodComparison [⟨"food", -200, 0, ""⟩] [] 0 (nsPerDay - 1)).prevTotalExpenses = 0 ∧
    (periodComparison [⟨"food", -200, 0, ""⟩] [] 0 (nsPerDay - 1)).expenseChange = 0 :=
  ⟨by decide,
    (periodComparison_zero_baseline_amended [⟨"food", -200, 0, ""⟩] [] 0 (nsPerDay - 1)).1
      (by decide)⟩

/-- A guarded clamped change always lands in `[-100, 200]`. -/
theorem ite_clamp_bounds (c : Prop) [Decidable c] (v : TrendVal) :
    -100 ≤ (if c then clampTrend v else 0) ∧ (if c then clampTrend v else 0) ≤ 200 := by
  split
  · exact clampTrend_bounds _
  · norm_num

/-- C4: every stored `PeriodComparison` change lies in `[-100, 200]`, and on
the §8 scenario (previous expense total 1000, current 4000, raw percent
change 300) the stored `ExpenseChange` is exactly the clamped 200. -/
theorem periodComparison_changes_clamped :
    (∀ (curTx prevTx : List Transaction) (s e : ℤ),
      (-100 ≤ (periodComparison curTx prevTx s e).expenseChange ∧
        (periodComparison curTx prevTx s e).expenseChange ≤ 200) ∧
      (-100 ≤ (periodComparison curTx prevTx s e).incomeChange ∧
        (periodComparison curTx prevTx s e).incomeChange ≤ 200) ∧
      (-100 ≤ (periodComparison curTx prevTx s e).balanceChange ∧
        (periodComparison curTx prevTx s e).balanceChange ≤ 200)) ∧
    calculateTrendPercent 4000 1000 = .fin 300 ∧
    (periodComparison [⟨"shop", -4000, 0, ""⟩] [⟨"shop", -1000, 1 - nsPerDay, ""⟩]
        0 (nsPerDay - 1)).prevTotalExpenses = 1000 ∧
    (periodComparison [⟨"shop", -4000, 0, ""⟩] [⟨"shop", -1000, 1 - nsPerDay, ""⟩]
        0 (nsPerDay - 1)).expenseChange = 200 := by
  have habs4 : |(4000 : ℚ)| = 4000 := abs_of_pos (by norm_num)
  have habs1 : |(1000 : ℚ)| = 1000 := abs_of_pos (by norm_num)
  have hctp : calculateTrendPercent 4000 1000 = .fin 300 := by
    norm_num [calculateTrendPercent, habs4, habs1]
  have hPE : totalExpenseIn [⟨"shop", -1000, 1 - nsPerDay, ""⟩]
      (prevWindowStart 0 (nsPerDay - 1)) (prevWindowEnd 0) = 1000 := by
    norm_num [totalExpenseIn, inWindow, prevWindowStart, prevWindowEnd, nsPerDay,
      List.filter_cons]
  have hCE : totalExpenseIn [⟨"shop", -4000, 0, ""⟩] 0 (nsPerDay - 1) = 4000 := by
    norm_num [totalExpenseIn, inWindow, nsPerDay, List.filter_cons]
  refine ⟨?_, hctp, hPE, ?_⟩
  · intro curTx prevTx s e
    exact ⟨ite_clamp_bounds _ _, ite_clamp_bounds _ _, ite_clamp_bounds _ _⟩
  · show (if 0 < totalExpenseIn [⟨"shop", -1000, 1 - nsPerDay, ""⟩]
        (prevWindowStart 0 (nsPerDay - 1)) (prevWindowEnd 0) then
      clampTrend (calculateTrendPercent
        (totalExpenseIn [⟨"shop", -4000, 0, ""⟩] 0 (nsPerDay - 1))
        (totalExpenseIn [⟨"shop", -1000, 1 - nsPerDay, ""⟩]
          (prevWindowStart 0 (nsPerDay - 1)) (prevWindowEnd 0)))
    else 0) = 200
    rw [hPE, hCE, if_pos (by norm_num : (0 : ℚ) < 1000), hctp]
    norm_num [clampTrend]

/-- C7 counterexample: an 8-calendar-day `GetReport` window (dates
`[0, 8*nsPerDay - 1]`) with current income total 8; the claim's
inclusive-day convention predicts `DailyAvgIncome = 8 / 8 = 1`, but the
stored value is `8 / ((8*nsPerDay - 1) / nsPerDay) ≠ 1` — the comparison
path divides by the raw fractional duration, without the `+1` used in
`fillTransactionStats`. -/
theorem periodComparison_dailyAvg_counterexample :
    (periodComparison [⟨"salary", 8, 0, ""⟩] [] 0 (8 * nsPerDay - 1)).curTotalIncome = 8 ∧
    ((periodComparison [⟨"salary", 8, 0, ""⟩] [] 0 (8 * nsPerDay - 1)).curDailyAvgIncome =
      8 / 8 → False) := by
  have hTI : totalIncomeIn [⟨"salary", 8, 0, ""⟩] 0 (8 * nsPerDay - 1) = 8 := by
    norm_num [totalIncomeIn, inWindow, nsPerDay, List.filter_cons]
  have hng : ¬ (((8 * nsPerDay - 1 - 0 : ℤ) : ℚ) / ((nsPerDay : ℤ) : ℚ) < 1) := by
    norm_num [nsPerDay]
  refine ⟨hTI, ?_⟩
  intro h
  rw [periodComparison_curDailyAvgIncome, if_neg hng, hTI] at h
  rw [div_div_eq_mul_div] at h
  norm_num [nsPerDay] at h

/-- C7 amended: for the `GetReport` window shape (midnight start `S` days,
end-of-day end `E` days, `S ≤ E`), the `PeriodComparison` daily averages
divide the totals by the raw fractional duration
`(end - start) / nsPerDay = (E - S + 1) - 1/nsPerDay` clamped below at 1 —
not by the inclusive day count `(E - S) + 1`.  For a multi-day window the
divisor is the fractional value; for a one-day window it clamps to 1. -/
theorem periodComparison_dailyAvg_amended (curTx prevTx : List Transaction) (S E s e : ℤ)
    (hs : s = S * nsPerDay) (he : e = E * nsPerDay + (nsPerDay - 1)) (hSE : S ≤ E) :
    (S < E →
      (periodComparison curTx prevTx s e).curDailyAvgIncome =
        totalIncomeIn curTx s e * ((nsPerDay : ℤ) : ℚ) /
          (((E - S + 1 : ℤ) : ℚ) * ((nsPerDay : ℤ) : ℚ) - 1) ∧
      (periodComparison curTx prevTx s e).curDailyAvgExpense =
        totalExpenseIn curTx s e * ((nsPerDay : ℤ) : ℚ) /
          (((E - S + 1 : ℤ) : ℚ) * ((nsPerDay : ℤ) : ℚ) - 1) ∧
      (periodComparison curTx prevTx s e).prevDailyAvgIncome =
        totalIncomeIn prevTx (prevWindowStart s e) (prevWindowEnd s) * ((nsPerDay : ℤ) : ℚ) /
          (((E - S + 1 : ℤ) : ℚ) * ((nsPerDay : ℤ) : ℚ) - 1) ∧
      (periodComparison curTx prevTx s e).prevDailyAvgExpense =
        totalExpenseIn prevTx (prevWindowStart s e) (prevWindowEnd s) * ((nsPerDay : ℤ) : ℚ) /
          (((E - S + 1 : ℤ) : ℚ) * ((nsPerDay : ℤ) : ℚ) - 1)) ∧
    (S = E →
      (periodComparison curTx prevTx s e).curDailyAvgIncome = totalIncomeIn curTx s e ∧
      (periodComparison curTx prevTx s e).curDailyAvgExpense = totalExpenseIn curTx s e) := by
  have hns : (0 : ℚ) < ((nsPerDay : ℤ) : ℚ) := by norm_num [nsPerDay]
  have hd : ((e - s : ℤ) : ℚ) = ((E - S + 1 : ℤ) : ℚ) * ((nsPerDay : ℤ) : ℚ) - 1 := by
    subst hs he
    push_cast
    ring
  constructor
  · intro hlt
    have hns1 : (1 : ℚ) ≤ ((nsPerDay : ℤ) : ℚ) := by norm_num [nsPerDay]
    have h2 : (2 : ℚ) ≤ ((E - S + 1 : ℤ) : ℚ) := by
      have : (2 : ℤ) ≤ E - S + 1 := by omega
      exact_mod_cast this
    have hx : (0 : ℚ) ≤ (((E - S + 1 : ℤ) : ℚ) - 2) * ((nsPerDay : ℤ) : ℚ) :=
      mul_nonneg (by linarith) hns.le
    have hbig : (1 : ℚ) * ((nsPerDay : ℤ) : ℚ) ≤ ((E - S + 1 : ℤ) : ℚ) * ((nsPerDay : ℤ) : ℚ) - 1 := by
      nlinarith [hx, hns1]
    have hng : ¬ (((e - s : ℤ) : ℚ) / ((nsPerDay : ℤ) : ℚ) < 1) := by
      rw [hd]
      exact not_lt.mpr ((le_div_iff₀ hns).mpr hbig)
    refine ⟨?_, ?_, ?_, ?_⟩
    · rw [periodComparison_curDailyAvgIncome, if_neg hng, hd, div_div_eq_mul_div]
    · rw [periodComparison_curDailyAvgExpense, if_neg hng, hd, div_div_eq_mul_div]
    · rw [periodComparison_prevDailyAvgIncome, if_neg hng, hd, div_div_eq_mul_div]
    · rw [periodComparison_prevDailyAvgExpense, if_neg hng, hd, div_div_eq_mul_div]
  · intro heq
    subst heq
    have hns1 : (1 : ℚ) ≤ ((nsPerDay : ℤ) : ℚ) := by norm_num [nsPerDay]
    have h1 : ((S - S + 1 : ℤ) : ℚ) = 1 := by push_cast; ring
    have hlt1 : ((e - s : ℤ) : ℚ) / ((nsPerDay : ℤ) : ℚ) < 1 := by
      rw [hd, div_lt_one hns, h1]
      linarith
    constructor
    · rw [periodComparison_curDailyAvgIncome, if_pos hlt1, div_one]
    · rw [periodComparison_curDailyAvgExpense, if_pos hlt1, div_one]

/-- Witness for C7's amended theorem: a two-day window `S = 0, E = 1` with a
single income of 4 on day 0. -/
theorem periodComparison_dailyAvg_amended_witness :
    (0 : ℤ) < 1 ∧
    (periodComparison [⟨"a", 4, 0, ""⟩] [] (0 * nsPerDay) (1 * nsPerDay + (nsPerDay - 1))).curDailyAvgIncome =
      totalIncomeIn [⟨"a", 4, 0, ""⟩] (0 * nsPerDay) (1 * nsPerDay + (nsPerDay - 1)) * ((nsPerDay : ℤ) : ℚ) /
        ((((1 : ℤ) - 0 + 1 : ℤ) : ℚ) * ((nsPerDay : ℤ) : ℚ) - 1) :=
  ⟨by norm_num,
    ((periodComparison_dailyAvg_amended [⟨"a", 4, 0, ""⟩] [] 0 1
      (0 * nsPerDay) (1 * nsPerDay + (nsPerDay - 1)) rfl rfl (by norm_num)).1 (by norm_num)).1⟩

/-- `t.Date.Format("2006-01-02")` under a fixed-offset location, read as a
day index: floor division of the timestamp by `nsPerDay`. -/
def dayOf (t : ℤ) : ℤ := t.fdiv nsPerDay

/-- The `income` field of `groupTransactionsByDay`'s map entry for day `d`
(expense_tracker.go:883-896); a missing key reads as the Go zero value 0. -/
def dayIncome (txns : List Transaction) (d : ℤ) : ℚ :=
  ((txns.filter fun t => decide (dayOf t.date = d) && decide (0 < t.amount)).map (·.amount)).sum

/-- The `expense` field of `groupTransactionsByDay`'s map entry for day `d`:
the `else` branch accumulates `-t.Amount` for `¬ 0 < amount`. -/
def dayExpense (txns : List Transaction) (d : ℤ) : ℚ :=
  ((txns.filter fun t => decide (dayOf t.date = d) && !decide (0 < t.amount)).map
    (fun t => -t.amount)).sum

/-- The key set of the `currentDaily` map. -/
def daysFinset (txns : List Transaction) : Finset ℤ :=
  (txns.map fun t => dayOf t.date).toFinset

/-- `totalIncome` of the averaging loop in `fillTrendAnalytics`
(expense_tracker.go:756-767): `stats.income` summed over map entries with
`stats.income > 0`. -/
def trendTotalIncome (txns : List Transaction) : ℚ :=
  ∑ d ∈ daysFinset txns, if 0 < dayIncome txns d then dayIncome txns d else 0

/-- `totalExpense` of the same loop. -/
def trendTotalExpense (txns : List Transaction) : ℚ :=
  ∑ d ∈ daysFinset txns, if 0 < dayExpense txns d then dayExpense txns d else 0

/-- `daysWithIncome` of the same loop. -/
def daysWithIncome (txns : List Transaction) : ℕ :=
  ((daysFinset txns).filter fun d => 0 < dayIncome txns d).card

/-- `daysWithExpense` of the same loop. -/
def daysWithExpense (txns : List Transaction) : ℕ :=
  ((daysFinset txns).filter fun d => 0 < dayExpense txns d).card

/-- `avgDailyIncome` (expense_tracker.go:770-773): 0 unless some day had
positive income. -/
def avgDailyIncome (txns : List Transaction) : ℚ :=
  if 0 < daysWithIncome txns then trendTotalIncome txns / (daysWithIncome txns : ℚ) else 0

/-- `avgDailyExpense` (expense_tracker.go:775-778). -/
def avgDailyExpense (txns : List Transaction) : ℚ :=
  if 0 < daysWithExpense txns then trendTotalExpense txns / (daysWithExpense txns : ℚ) else 0

/-- The date sequence of the trend loop
`for date := StartDate; !date.After(EndDate); date = date.AddDate(0,0,1)`
(expense_tracker.go:784), with `AddDate(0,0,1)` = `+nsPerDay` under a
fixed-offset location. -/
def trendDatesAux (e d : ℤ) : List ℤ :=
  if d ≤ e then d :: trendDatesAux e (d + nsPerDay) else []
termination_by (e + nsPerDay - d).toNat
decreasing_by
  simp only [nsPerDay] at *
  omega

/-- `TrendPoint` (expense_tracker.go:284-288); `Change` is a raw
`calculateTrendPercent` result, hence a `TrendVal`. -/
structure TrendPoint where
  date : ℤ
  amount : ℚ
  change : TrendVal
deriving DecidableEq

/-- `report.Trends.IncomeTrend` as built by `fillTrendAnalytics`
(expense_tracker.go:788-795). -/
def incomeTrend (txns : List Transaction) (s e : ℤ) : List TrendPoint :=
  (trendDatesAux e s).map fun d =>
    ⟨d, dayIncome txns (dayOf d),
      calculateTrendPercent (dayIncome txns (dayOf d)) (avgDailyIncome txns)⟩

/-- `report.Trends.ExpenseTrend` (expense_tracker.go:797-804): the stored
amount is the negated day expense. -/
def expenseTrend (txns : List Transaction) (s e : ℤ) : List TrendPoint :=
  (trendDatesAux e s).map fun d =>
    ⟨d, -(dayExpense txns (dayOf d)),
      calculateTrendPercent (dayExpense txns (dayOf d)) (avgDailyExpense txns)⟩

/-- One unfolding step of the trend-date loop. -/
theorem trendDatesAux_unfold (e d : ℤ) :
    trendDatesAux e d = if d ≤ e then d :: trendDatesAux e (d + nsPerDay) else [] := by
  rw [trendDatesAux]

/-- Closed form of the trend-date loop on a `GetReport`-shaped window:
one date per calendar day. -/
theorem trendDatesAux_closed (N : ℕ) : ∀ S : ℤ,
    trendDatesAux ((S + (N : ℤ)) * nsPerDay + (nsPerDay - 1)) (S * nsPerDay) =
      (List.range (N + 1)).map (fun k : ℕ => S * nsPerDay + (k : ℤ) * nsPerDay) := by
  induction N with
  | zero =>
    intro S
    rw [trendDatesAux_unfold, if_pos (by simp only [nsPerDay]; omega),
      trendDatesAux_unfold, if_neg (by simp only [nsPerDay]; omega)]
    simp [List.range_succ]
  | succ M ih =>
    intro S
    rw [trendDatesAux_unfold, if_pos (by simp only [nsPerDay]; omega)]
    have hstep : S * nsPerDay + nsPerDay = (S + 1) * nsPerDay := by ring
    have he : (S + ((M + 1 : ℕ) : ℤ)) * nsPerDay + (nsPerDay - 1) =
        ((S + 1) + (M : ℤ)) * nsPerDay + (nsPerDay - 1) := by
      push_cast
      ring
    rw [he, hstep, ih (S + 1)]
    have htail : (List.range (M + 1)).map (fun k : ℕ => (S + 1) * nsPerDay + (k : ℤ) * nsPerDay) =
        (List.range (M + 1)).map ((fun k : ℕ => S * nsPerDay + (k : ℤ) * nsPerDay) ∘ Nat.succ) := by
      refine List.map_congr_left ?_
      intro k hk
      simp only [Function.comp_apply]
      push_cast
      ring
    rw [htail]
    conv_rhs => rw [List.range_succ_eq_map]
    rw [List.map_cons, List.map_map]
    simp

/-- Midnight timestamps bucket to their own day index. -/
theorem dayOf_mul (n : ℤ) : dayOf (n * nsPerDay) = n := by
  have h : nsPerDay ≠ 0 := by norm_num [nsPerDay]
  simpa [dayOf] using Int.mul_fdiv_cancel n h

/-- A day's expense accumulation is a sum of nonnegative `-t.Amount` terms. -/
theorem dayExpense_nonneg (txns : List Transaction) (d : ℤ) : 0 ≤ dayExpense txns d := by
  unfold dayExpense
  refine List.sum_nonneg ?_
  intro x hx
  simp only [List.mem_map, List.mem_filter, Bool.and_eq_true, Bool.not_eq_true',
    decide_eq_false_iff_not, decide_eq_true_eq] at hx
  obtain ⟨t, ⟨_, _, hp⟩, rfl⟩ := hx
  linarith [not_lt.mp hp]

/-- A day's income accumulation is a sum of positive amounts. -/
theorem dayIncome_nonneg (txns : List Transaction) (d : ℤ) : 0 ≤ dayIncome txns d := by
  unfold dayIncome
  refine List.sum_nonneg ?_
  intro x hx
  simp only [List.mem_map, List.mem_filter, Bool.and_eq_true, decide_eq_true_eq] at hx
  obtain ⟨t, ⟨_, _, hp⟩, rfl⟩ := hx
  linarith

/-- A day no transaction falls on reads as income 0 (missing map key). -/
theorem dayIncome_eq_zero_of_none (txns : List Transaction) (d : ℤ)
    (h : ∀ t ∈ txns, dayOf t.date ≠ d) : dayIncome txns d = 0 := by
  unfold dayIncome
  have hnil : txns.filter (fun t => decide (dayOf t.date = d) && decide (0 < t.amount)) = [] := by
    rw [List.filter_eq_nil_iff]
    intro t ht
    simp [h t ht]
  rw [hnil]
  rfl

/-- A day no transaction falls on reads as expense 0 (missing map key). -/
theorem dayExpense_eq_zero_of_none (txns : List Transaction) (d : ℤ)
    (h : ∀ t ∈ txns, dayOf t.date ≠ d) : dayExpense txns d = 0 := by
  unfold dayExpense
  have hnil : txns.filter (fun t => decide (dayOf t.date = d) && !decide (0 < t.amount)) = [] := by
    rw [List.filter_eq_nil_iff]
    intro t ht
    simp [h t ht]
  rw [hnil]
  rfl

/-- C5: on a `GetReport` window (midnight day `S` through end-of-day `E`,
`S ≤ E`), both trend series have exactly `(E - S) + 1` points, one per
calendar day in ascending order (point `i` carries date `start + i` days);
the income point carries that day's income, the expense point carries the
negation of that day's nonnegative expense sum, and days with no
transactions carry amount 0 in both series. -/
theorem trends_one_point_per_day (txns : List Transaction) (S E s e : ℤ)
    (hs : s = S * nsPerDay) (he : e = E * nsPerDay + (nsPerDay - 1)) (hSE : S ≤ E) :
    (incomeTrend txns s e).length = (E - S).toNat + 1 ∧
    (expenseTrend txns s e).length = (E - S).toNat + 1 ∧
    (∀ i : ℕ, ∀ hi : i < (incomeTrend txns s e).length,
      ((incomeTrend txns s e).get ⟨i, hi⟩).date = s + (i : ℤ) * nsPerDay) ∧
    (∀ i : ℕ, ∀ hi : i < (expenseTrend txns s e).length,
      ((expenseTrend txns s e).get ⟨i, hi⟩).date = s + (i : ℤ) * nsPerDay) ∧
    (∀ i : ℕ, ∀ hi : i < (incomeTrend txns s e).length,
      ((incomeTrend txns s e).get ⟨i, hi⟩).amount = dayIncome txns (S + (i : ℤ))) ∧
    (∀ i : ℕ, ∀ hi : i < (expenseTrend txns s e).length,
      ((expenseTrend txns s e).get ⟨i, hi⟩).amount = -(dayExpense txns (S + (i : ℤ))) ∧
        0 ≤ dayExpense txns (S + (i : ℤ))) ∧
    (∀ i : ℕ, ∀ hi₁ : i < (incomeTrend txns s e).length,
      ∀ hi₂ : i < (expenseTrend txns s e).length,
      (∀ t ∈ txns, dayOf t.date ≠ S + (i : ℤ)) →
        ((incomeTrend txns s e).get ⟨i, hi₁⟩).amount = 0 ∧
        ((expenseTrend txns s e).get ⟨i, hi₂⟩).amount = 0) := by
  subst hs he
  have hEN : ((E - S).toNat : ℤ) = E - S := by omega
  have hre : E * nsPerDay + (nsPerDay - 1) =
      (S + ((E - S).toNat : ℤ)) * nsPerDay + (nsPerDay - 1) := by
    rw [hEN]
    ring
  have hdates : trendDatesAux (E * nsPerDay + (nsPerDay - 1)) (S * nsPerDay) =
      (List.range ((E - S).toNat + 1)).map (fun k : ℕ => S * nsPerDay + (k : ℤ) * nsPerDay) := by
    rw [hre, trendDatesAux_closed]
  have hday : ∀ k : ℕ, dayOf (S * nsPerDay + (k : ℤ) * nsPerDay) = S + (k : ℤ) := by
    intro k
    rw [show S * nsPerDay + (k : ℤ) * nsPerDay = (S + (k : ℤ)) * nsPerDay from by ring, dayOf_mul]
  have hgetI : ∀ i : ℕ, ∀ hi : i < (incomeTrend txns (S * nsPerDay)
      (E * nsPerDay + (nsPerDay - 1))).length,
      (incomeTrend txns (S * nsPerDay) (E * nsPerDay + (nsPerDay - 1))).get ⟨i, hi⟩ =
        ⟨S * nsPerDay + (i : ℤ) * nsPerDay, dayIncome txns (S + (i : ℤ)),
          calculateTrendPercent (dayIncome txns (S + (i : ℤ))) (avgDailyIncome txns)⟩ := by
    intro i hi
    simp only [incomeTrend, hdates, List.get_eq_getElem, List.getElem_map, List.getElem_range,
      hday]
  have hgetE : ∀ i : ℕ, ∀ hi : i < (expenseTrend txns (S * nsPerDay)
      (E * nsPerDay + (nsPerDay - 1))).length,
      (expenseTrend txns (S * nsPerDay) (E * nsPerDay + (nsPerDay - 1))).get ⟨i, hi⟩ =
        ⟨S * nsPerDay + (i : ℤ) * nsPerDay, -(dayExpense txns (S + (i : ℤ))),
          calculateTrendPercent (dayExpense txns (S + (i : ℤ))) (avgDailyExpense txns)⟩ := by
    intro i hi
    simp only [expenseTrend, hdates, List.get_eq_getElem, List.getElem_map, List.getElem_range,
      hday]
  refine ⟨by simp [incomeTrend, hdates], by simp [expenseTrend, hdates], ?_, ?_, ?_, ?_, ?_⟩
  · intro i hi
    rw [hgetI i hi]
  · intro i hi
    rw [hgetE i hi]
  · intro i hi
    rw [hgetI i hi]
  · intro i hi
    exact ⟨by rw [hgetE i hi], dayExpense_nonneg txns _⟩
  · intro i hi₁ hi₂ hnone
    constructor
    · rw [hgetI i hi₁]
      exact dayIncome_eq_zero_of_none txns _ hnone
    · rw [hgetE i hi₂]
      simp [dayExpense_eq_zero_of_none txns _ hnone]

/-- Witness for C5: a two-day window `S = 0, E = 1` with one expense. -/
theorem trends_one_point_per_day_witness :
    (0 : ℤ) ≤ 1 ∧
    (incomeTrend [⟨"x", -7, 0, ""⟩] (0 * nsPerDay) (1 * nsPerDay + (nsPerDay - 1))).length =
      ((1 : ℤ) - 0).toNat + 1 :=
  ⟨by norm_num,
    (trends_one_point_per_day [⟨"x", -7, 0, ""⟩] 0 1 (0 * nsPerDay)
      (1 * nsPerDay + (nsPerDay - 1)) rfl rfl (by norm_num)).1⟩

/-- Cons unfolding of a day's income. -/
theorem dayIncome_cons (t : Transaction) (ts : List Transaction) (d : ℤ) :
    dayIncome (t :: ts) d =
      (if dayOf t.date = d ∧ 0 < t.amount then t.amount else 0) + dayIncome ts d := by
  simp only [dayIncome, List.filter_cons, Bool.and_eq_true, decide_eq_true_eq]
  by_cases h : dayOf t.date = d ∧ 0 < t.amount
  · simp [h]
  · simp [h]

/-- Cons unfolding of a day's expense. -/
theorem dayExpense_cons (t : Transaction) (ts : List Transaction) (d : ℤ) :
    dayExpense (t :: ts) d =
      (if dayOf t.date = d ∧ t.amount ≤ 0 then -t.amount else 0) + dayExpense ts d := by
  simp only [dayExpense, List.filter_cons, Bool.and_eq_true, Bool.not_eq_true',
    decide_eq_false_iff_not, decide_eq_true_eq, not_lt]
  by_cases h : dayOf t.date = d ∧ t.amount ≤ 0
  · simp [h]
  · simp [h]

/-- Cons unfolding of the day-key set. -/
theorem daysFinset_cons (t : Transaction) (ts : List Transaction) :
    daysFinset (t :: ts) = insert (dayOf t.date) (daysFinset ts) := by
  simp [daysFinset]

/-- Summing the per-day income over any superset of the day keys recovers
the plain sum of the positive amounts. -/
theorem sum_dayIncome_over (txns : List Transaction) :
    ∀ F : Finset ℤ, daysFinset txns ⊆ F →
      (∑ d ∈ F, dayIncome txns d) =
        ((txns.filter fun t => decide (0 < t.amount)).map (·.amount)).sum := by
  induction txns with
  | nil =>
    intro F _
    simp [dayIncome]
  | cons t ts ih =>
    intro F hF
    have hmem : dayOf t.date ∈ F := by
      refine hF ?_
      rw [daysFinset_cons]
      exact Finset.mem_insert_self _ _
    have hsub : daysFinset ts ⊆ F := by
      intro d hd
      refine hF ?_
      rw [daysFinset_cons]
      exact Finset.mem_insert_of_mem hd
    have hrhs : (((t :: ts).filter fun t => decide (0 < t.amount)).map (·.amount)).sum =
        (if 0 < t.amount then t.amount else 0) +
          ((ts.filter fun t => decide (0 < t.amount)).map (·.amount)).sum := by
      by_cases hp : 0 < t.amount <;> simp [List.filter_cons, hp]
    calc (∑ d ∈ F, dayIncome (t :: ts) d)
        = ∑ d ∈ F, ((if dayOf t.date = d ∧ 0 < t.amount then t.amount else 0) +
            dayIncome ts d) := Finset.sum_congr rfl fun d _ => dayIncome_cons t ts d
      _ = (∑ d ∈ F, if dayOf t.date = d ∧ 0 < t.amount then t.amount else 0) +
            ∑ d ∈ F, dayIncome ts d := Finset.sum_add_distrib
      _ = (if 0 < t.amount then t.amount else 0) +
            ((ts.filter fun t => decide (0 < t.amount)).map (·.amount)).sum := by
          rw [ih F hsub]
          congr 1
          by_cases hp : 0 < t.amount
          · have hcong : ∀ d ∈ F, (if dayOf t.date = d ∧ 0 < t.amount then t.amount else 0) =
                if dayOf t.date = d then t.amount else 0 := by
              intro d _
              by_cases hd : dayOf t.date = d <;> simp [hd, hp]
            rw [Finset.sum_congr rfl hcong, Finset.sum_ite_eq F (dayOf t.date) fun _ => t.amount,
              if_pos hmem, if_pos hp]
          · rw [if_neg hp, Finset.sum_eq_zero]
            intro d _
            rw [if_neg]
            rintro ⟨_, h2⟩
            exact hp h2
      _ = (((t :: ts).filter fun t => decide (0 < t.amount)).map (·.amount)).sum := hrhs.symm

/-- Summing the per-day expense over any superset of the day keys recovers
the plain sum of the negated non-income amounts. -/
theorem sum_dayExpense_over (txns : List Transaction) :
    ∀ F : Finset ℤ, daysFinset txns ⊆ F →
      (∑ d ∈ F, dayExpense txns d) =
        ((txns.filter fun t => !decide (0 < t.amount)).map (fun t => -t.amount)).sum := by
  induction txns with
  | nil =>
    intro F _
    simp [dayExpense]
  | cons t ts ih =>
    intro F hF
    have hmem : dayOf t.date ∈ F := by
      refine hF ?_
      rw [daysFinset_cons]
      exact Finset.mem_insert_self _ _
    have hsub : daysFinset ts ⊆ F := by
      intro d hd
      refine hF ?_
      rw [daysFinset_cons]
      exact Finset.mem_insert_of_mem hd
    have hrhs : (((t :: ts).filter fun t => !decide (0 < t.amount)).map (fun t => -t.amount)).sum =
        (if t.amount ≤ 0 then -t.amount else 0) +
          ((ts.filter fun t => !decide (0 < t.amount)).map (fun t => -t.amount)).sum := by
      by_cases hp : t.amount ≤ 0 <;> simp [List.filter_cons, hp, not_lt]
    calc (∑ d ∈ F, dayExpense (t :: ts) d)
        = ∑ d ∈ F, ((if dayOf t.date = d ∧ t.amount ≤ 0 then -t.amount else 0) +
            dayExpense ts d) := Finset.sum_congr rfl fun d _ => dayExpense_cons t ts d
      _ = (∑ d ∈ F, if dayOf t.date = d ∧ t.amount ≤ 0 then -t.amount else 0) +
            ∑ d ∈ F, dayExpense ts d := Finset.sum_add_distrib
      _ = (if t.amount ≤ 0 then -t.amount else 0) +
            ((ts.filter fun t => !decide (0 < t.amount)).map (fun t => -t.amount)).sum := by
          rw [ih F hsub]
          congr 1
          by_cases hp : t.amount ≤ 0
          · have hcong : ∀ d ∈ F, (if dayOf t.date = d ∧ t.amount ≤ 0 then -t.amount else 0) =
                if dayOf t.date = d then -t.amount else 0 := by
              intro d _
              by_cases hd : dayOf t.date = d <;> simp [hd, hp]
            rw [Finset.sum_congr rfl hcong, Finset.sum_ite_eq F (dayOf t.date) fun _ => -t.amount,
              if_pos hmem, if_pos hp]
          · rw [if_neg hp, Finset.sum_eq_zero]
            intro d _
            rw [if_neg]
            rintro ⟨_, h2⟩
            exact hp h2
      _ = (((t :: ts).filter fun t => !decide (0 < t.amount)).map (fun t => -t.amount)).sum :=
          hrhs.symm

/-- The trend loop's `totalIncome` (restricted to days with positive income)
equals the plain total of the positive amounts. -/
theorem trendTotalIncome_eq (txns : List Transaction) :
    trendTotalIncome txns = ((txns.filter fun t => decide (0 < t.amount)).map (·.amount)).sum := by
  unfold trendTotalIncome
  have h1 : ∀ d ∈ daysFinset txns,
      (if 0 < dayIncome txns d then dayIncome txns d else 0) = dayIncome txns d := by
    intro d _
    by_cases h : 0 < dayIncome txns d
    · rw [if_pos h]
    · rw [if_neg h]
      exact (le_antisymm (not_lt.mp h) (dayIncome_nonneg txns d)).symm
  rw [Finset.sum_congr rfl h1, sum_dayIncome_over txns (daysFinset txns) (subset_refl _)]

/-- The trend loop's `totalExpense` equals the plain total of the negated
non-income amounts. -/
theorem trendTotalExpense_eq (txns : List Transaction) :
    trendTotalExpense txns =
      ((txns.filter fun t => !decide (0 < t.amount)).map (fun t => -t.amount)).sum := by
  unfold trendTotalExpense
  have h1 : ∀ d ∈ daysFinset txns,
      (if 0 < dayExpense txns d then dayExpense txns d else 0) = dayExpense txns d := by
    intro d _
    by_cases h : 0 < dayExpense txns d
    · rw [if_pos h]
    · rw [if_neg h]
      exact (le_antisymm (not_lt.mp h) (dayExpense_nonneg txns d)).symm
  rw [Finset.sum_congr rfl h1, sum_dayExpense_over txns (daysFinset txns) (subset_refl _)]

/-- C6: the trend baseline divides the window's total income (resp. expense)
by the number of days with positive income (resp. expense) activity, and is
0 for a side with no active day. -/
theorem trend_baseline_average (txns : List Transaction) (s e : ℤ)
    (_hin : ∀ t ∈ txns, s ≤ t.date ∧ t.date ≤ e) :
    (daysWithIncome txns = 0 → avgDailyIncome txns = 0) ∧
    (0 < daysWithIncome txns →
      avgDailyIncome txns =
        ((txns.filter fun t => decide (0 < t.amount)).map (·.amount)).sum /
          (daysWithIncome txns : ℚ)) ∧
    (daysWithExpense txns = 0 → avgDailyExpense txns = 0) ∧
    (0 < daysWithExpense txns →
      avgDailyExpense txns =
        ((txns.filter fun t => !decide (0 < t.amount)).map (fun t => -t.amount)).sum /
          (daysWithExpense txns : ℚ)) := by
  refine ⟨?_, ?_, ?_, ?_⟩
  · intro h
    rw [avgDailyIncome, if_neg]
    omega
  · intro h
    rw [avgDailyIncome, if_pos h, trendTotalIncome_eq]
  · intro h
    rw [avgDailyExpense, if_neg]
    omega
  · intro h
    rw [avgDailyExpense, if_pos h, trendTotalExpense_eq]

/-- Witness for C6: one income of 5 on day 0 inside a one-day window. -/
theorem trend_baseline_average_witness :
    (∀ t ∈ [(⟨"a", 5, 0, ""⟩ : Transaction)], (0 : ℤ) ≤ t.date ∧ t.date ≤ nsPerDay - 1) ∧
    avgDailyIncome [(⟨"a", 5, 0, ""⟩ : Transaction)] =
      (([(⟨"a", 5, 0, ""⟩ : Transaction)].filter fun t => decide (0 < t.amount)).map
        (·.amount)).sum / (daysWithIncome [(⟨"a", 5, 0, ""⟩ : Transaction)] : ℚ) := by
  have hwin : ∀ t ∈ [(⟨"a", 5, 0, ""⟩ : Transaction)], (0 : ℤ) ≤ t.date ∧ t.date ≤ nsPerDay - 1 := by
    intro t ht
    simp only [List.mem_singleton] at ht
    subst ht
    refine ⟨by norm_num, by norm_num [nsPerDay]⟩
  have hd0 : dayOf 0 = 0 := by decide
  have hdi : dayIncome [(⟨"a", 5, 0, ""⟩ : Transaction)] 0 = 5 := by
    norm_num [dayIncome, List.filter_cons, hd0]
  have hpos : 0 < daysWithIncome [(⟨"a", 5, 0, ""⟩ : Transaction)] := by
    norm_num [daysWithIncome, daysFinset, hd0, hdi, Finset.filter_singleton]
  exact ⟨hwin, (trend_baseline_average [⟨"a", 5, 0, ""⟩] 0 (nsPerDay - 1) hwin).2.1 hpos⟩

/-- `model.TransactionInfo`, the max-transaction record. -/
structure TransactionInfo where
  amount : ℚ
  categoryID : String
  date : ℤ
  description : String
deriving DecidableEq

/-- Go zero value of `model.TransactionInfo` (zero time modelled as 0). -/
def emptyInfo : TransactionInfo := ⟨0, "", 0, ""⟩

/-- Accumulator of the `fillTransactionStats` loop (expense_tracker.go:
560-597): running totals, counts and max trackers. -/
structure StatsAcc where
  totalIncome : ℚ
  totalExpense : ℚ
  incomeCount : ℕ
  expenseCount : ℕ
  maxIncome : TransactionInfo
  maxExpense : TransactionInfo
deriving DecidableEq

/-- One iteration of the `fillTransactionStats` loop: skip when out of
window, then branch on `t.Amount > 0`; the `else` branch books `-t.Amount`
as an expense (so a zero amount is an expense of 0). -/
def statsStep (s e : ℤ) (acc : StatsAcc) (t : Transaction) : StatsAcc :=
  if t.date < s ∨ e < t.date then acc
  else if 0 < t.amount then
    { acc with
      totalIncome := acc.totalIncome + t.amount
      incomeCount := acc.incomeCount + 1
      maxIncome := if acc.maxIncome.amount < t.amount then
          ⟨t.amount, t.categoryID, t.date, t.description⟩
        else acc.maxIncome }
  else
    { acc with
      totalExpense := acc.totalExpense + -t.amount
      expenseCount := acc.expenseCount + 1
      maxExpense := if acc.maxExpense.amount < -t.amount then
          ⟨-t.amount, t.categoryID, t.date, t.description⟩
        else acc.maxExpense }

/-- `report.TransactionData` together with the report totals filled by
`fillTransactionStats` (expense_tracker.go:550-628). -/
structure TxStats where
  totalCount : ℕ
  incomeCount : ℕ
  expenseCount : ℕ
  avgIncome : ℚ
  avgExpense : ℚ
  dailyAvgIncome : ℚ
  dailyAvgExpense : ℚ
  maxIncome : TransactionInfo
  maxExpense : TransactionInfo
  totalIncome : ℚ
  totalExpenses : ℚ
  balance : ℚ
deriving DecidableEq

/-- Go zero values of the loop accumulator. -/
def statsInit : StatsAcc := ⟨0, 0, 0, 0, emptyInfo, emptyInfo⟩

/-- `fillTransactionStats` (expense_tracker.go:550-628): fold the loop, then
compute the averages; `days` here is the fractional duration plus one
(`+1 чтобы включить текущий день`), clamped below at 1; `AvgIncome` and
`AvgExpense` keep their Go zero value 0 when the matching count is 0. -/
def fillTransactionStats (txns : List Transaction) (s e : ℤ) : TxStats :=
  let acc := txns.foldl (statsStep s e) statsInit
  let days0 : ℚ := ((e - s : ℤ) : ℚ) / ((nsPerDay : ℤ) : ℚ) + 1
  let days : ℚ := if days0 < 1 then 1 else days0
  { totalCount := acc.incomeCount + acc.expenseCount
    incomeCount := acc.incomeCount
    expenseCount := acc.expenseCount
    avgIncome := if 0 < acc.incomeCount then acc.totalIncome / (acc.incomeCount : ℚ) else 0
    avgExpense := if 0 < acc.expenseCount then acc.totalExpense / (acc.expenseCount : ℚ) else 0
    dailyAvgIncome := acc.totalIncome / days
    dailyAvgExpense := acc.totalExpense / days
    maxIncome := acc.maxIncome
    maxExpense := acc.maxExpense
    totalIncome := acc.totalIncome
    totalExpenses := acc.totalExpense
    balance := acc.totalIncome - acc.totalExpense }

/-- The max-expense tracker never goes below 0. -/
theorem statsStep_maxExpense_nonneg (s e : ℤ) (acc : StatsAcc) (t : Transaction)
    (h : 0 ≤ acc.maxExpense.amount) : 0 ≤ (statsStep s e acc t).maxExpense.amount := by
  unfold statsStep
  by_cases h1 : t.date < s ∨ e < t.date
  · rw [if_pos h1]
    exact h
  · rw [if_neg h1]
    by_cases h2 : 0 < t.amount
    · rw [if_pos h2]
      exact h
    · rw [if_neg h2]
      show 0 ≤ (if acc.maxExpense.amount < -t.amount then
          (⟨-t.amount, t.categoryID, t.date, t.description⟩ : TransactionInfo)
        else acc.maxExpense).amount
      by_cases h3 : acc.maxExpense.amount < -t.amount
      · rw [if_pos h3]
        show 0 ≤ -t.amount
        linarith [not_lt.mp h2]
      · rw [if_neg h3]
        exact h

/-- The expense total is 0 while the expense count is 0. -/
theorem statsStep_count_total (s e : ℤ) (acc : StatsAcc) (t : Transaction)
    (h : acc.expenseCount = 0 → acc.totalExpense = 0) :
    (statsStep s e acc t).expenseCount = 0 → (statsStep s e acc t).totalExpense = 0 := by
  unfold statsStep
  by_cases h1 : t.date < s ∨ e < t.date
  · rw [if_pos h1]
    exact h
  · rw [if_neg h1]
    by_cases h2 : 0 < t.amount
    · rw [if_pos h2]
      exact h
    · rw [if_neg h2]
      intro hc
      exact absurd hc (Nat.succ_ne_zero _)

/-- Both `statsStep` invariants, folded over a transaction list. -/
theorem foldl_statsStep_inv (s e : ℤ) (txns : List Transaction) : ∀ acc : StatsAcc,
    0 ≤ acc.maxExpense.amount → (acc.expenseCount = 0 → acc.totalExpense = 0) →
      0 ≤ (txns.foldl (statsStep s e) acc).maxExpense.amount ∧
      ((txns.foldl (statsStep s e) acc).expenseCount = 0 →
        (txns.foldl (statsStep s e) acc).totalExpense = 0) := by
  induction txns with
  | nil =>
    intro acc h1 h2
    exact ⟨h1, h2⟩
  | cons t ts ih =>
    intro acc h1 h2
    exact ih (statsStep s e acc t) (statsStep_maxExpense_nonneg s e acc t h1)
      (statsStep_count_total s e acc t h2)

/-- An in-window zero-amount transaction takes the expense branch and only
bumps the expense count. -/
theorem statsStep_zero_amount (s e : ℤ) (A : StatsAcc) (t0 : Transaction)
    (h0 : t0.amount = 0) (hs : s ≤ t0.date) (he : t0.date ≤ e)
    (hmax : 0 ≤ A.maxExpense.amount) :
    statsStep s e A t0 = { A with expenseCount := A.expenseCount + 1 } := by
  unfold statsStep
  rw [if_neg (show ¬ (t0.date < s ∨ e < t0.date) by rintro (h | h) <;> omega),
    if_neg (show ¬ 0 < t0.amount by rw [h0]; exact lt_irrefl 0), h0, neg_zero, add_zero,
    if_neg (not_lt.mpr hmax)]

/-- C10: appending an in-window zero-amount transaction bumps the expense
and total counts, enlarges the `AvgExpense` denominator (strictly lowering
the average whenever real expenses exist), and leaves the totals, balance
and both max trackers unchanged. -/
theorem zero_amount_goes_to_expense_bucket (txns : List Transaction) (t0 : Transaction)
    (s e : ℤ) (h0 : t0.amount = 0) (hs : s ≤ t0.date) (he : t0.date ≤ e) :
    (fillTransactionStats (txns ++ [t0]) s e).expenseCount =
      (fillTransactionStats txns s e).expenseCount + 1 ∧
    (fillTransactionStats (txns ++ [t0]) s e).totalCount =
      (fillTransactionStats txns s e).totalCount + 1 ∧
    (fillTransactionStats (txns ++ [t0]) s e).incomeCount =
      (fillTransactionStats txns s e).incomeCount ∧
    (fillTransactionStats (txns ++ [t0]) s e).totalIncome =
      (fillTransactionStats txns s e).totalIncome ∧
    (fillTransactionStats (txns ++ [t0]) s e).totalExpenses =
      (fillTransactionStats txns s e).totalExpenses ∧
    (fillTransactionStats (txns ++ [t0]) s e).balance =
      (fillTransactionStats txns s e).balance ∧
    (fillTransactionStats (txns ++ [t0]) s e).maxIncome =
      (fillTransactionStats txns s e).maxIncome ∧
    (fillTransactionStats (txns ++ [t0]) s e).maxExpense =
      (fillTransactionStats txns s e).maxExpense ∧
    (fillTransactionStats (txns ++ [t0]) s e).avgExpense =
      (fillTransactionStats txns s e).totalExpenses /
        (((fillTransactionStats txns s e).expenseCount : ℚ) + 1) ∧
    (0 < (fillTransactionStats txns s e).totalExpenses →
      (fillTransactionStats (txns ++ [t0]) s e).avgExpense <
        (fillTransactionStats txns s e).avgExpense) := by
  have hinv := foldl_statsStep_inv s e txns statsInit (le_refl 0) (fun _ => rfl)
  have hA : (txns ++ [t0]).foldl (statsStep s e) statsInit =
      { txns.foldl (statsStep s e) statsInit with
        expenseCount := (txns.foldl (statsStep s e) statsInit).expenseCount + 1 } := by
    rw [List.foldl_append, List.foldl_cons, List.foldl_nil,
      statsStep_zero_amount s e _ t0 h0 hs he hinv.1]
  refine ⟨?_, ?_, ?_, ?_, ?_, ?_, ?_, ?_, ?_, ?_⟩
  · show ((txns ++ [t0]).foldl (statsStep s e) statsInit).expenseCount =
      (txns.foldl (statsStep s e) statsInit).expenseCount + 1
    rw [hA]
  · show ((txns ++ [t0]).foldl (statsStep s e) statsInit).incomeCount +
      ((txns ++ [t0]).foldl (statsStep s e) statsInit).expenseCount =
      ((txns.foldl (statsStep s e) statsInit).incomeCount +
        (txns.foldl (statsStep s e) statsInit).expenseCount) + 1
    rw [hA]
    dsimp only
    omega
  · show ((txns ++ [t0]).foldl (statsStep s e) statsInit).incomeCount =
      (txns.foldl (statsStep s e) statsInit).incomeCount
    rw [hA]
  · show ((txns ++ [t0]).foldl (statsStep s e) statsInit).totalIncome =
      (txns.foldl (statsStep s e) statsInit).totalIncome
    rw [hA]
  · show ((txns ++ [t0]).foldl (statsStep s e) statsInit).totalExpense =
      (txns.foldl (statsStep s e) statsInit).totalExpense
    rw [hA]
  · show ((txns ++ [t0]).foldl (statsStep s e) statsInit).totalIncome -
      ((txns ++ [t0]).foldl (statsStep s e) statsInit).totalExpense =
      (txns.foldl (statsStep s e) statsInit).totalIncome -
        (txns.foldl (statsStep s e) statsInit).totalExpense
    rw [hA]
  · show ((txns ++ [t0]).foldl (statsStep s e) statsInit).maxIncome =
      (txns.foldl (statsStep s e) statsInit).maxIncome
    rw [hA]
  · show ((txns ++ [t0]).foldl (statsStep s e) statsInit).maxExpense =
      (txns.foldl (statsStep s e) statsInit).maxExpense
    rw [hA]
  · show (if 0 < ((txns ++ [t0]).foldl (statsStep s e) statsInit).expenseCount then
        ((txns ++ [t0]).foldl (statsStep s e) statsInit).totalExpense /
          (((txns ++ [t0]).foldl (statsStep s e) statsInit).expenseCount : ℚ)
      else 0) =
      (txns.foldl (statsStep s e) statsInit).totalExpense /
        (((txns.foldl (statsStep s e) statsInit).expenseCount : ℚ) + 1)
    rw [hA]
    show (if 0 < (txns.foldl (statsStep s e) statsInit).expenseCount + 1 then
        (txns.foldl (statsStep s e) statsInit).totalExpense /
          (((txns.foldl (statsStep s e) statsInit).expenseCount + 1 : ℕ) : ℚ)
      else 0) = _
    rw [if_pos (Nat.succ_pos _)]
    push_cast
    rfl
  · intro hT
    have hT' : 0 < (txns.foldl (statsStep s e) statsInit).totalExpense := hT
    have hec : 0 < (txns.foldl (statsStep s e) statsInit).expenseCount := by
      rcases Nat.eq_zero_or_pos (txns.foldl (statsStep s e) statsInit).expenseCount with h | h
      · rw [hinv.2 h] at hT'
        exact absurd hT' (lt_irrefl 0)
      · exact h
    show (if 0 < ((txns ++ [t0]).foldl (statsStep s e) statsInit).expenseCount then
        ((txns ++ [t0]).foldl (statsStep s e) statsInit).totalExpense /
          (((txns ++ [t0]).foldl (statsStep s e) statsInit).expenseCount : ℚ)
      else 0) <
      (if 0 < (txns.foldl (statsStep s e) statsInit).expenseCount then
        (txns.foldl (statsStep s e) statsInit).totalExpense /
          (((txns.foldl (statsStep s e) statsInit).expenseCount : ℚ))
      else 0)
    rw [hA]
    show (if 0 < (txns.foldl (statsStep s e) statsInit).expenseCount + 1 then
        (txns.foldl (statsStep s e) statsInit).totalExpense /
          (((txns.foldl (statsStep s e) statsInit).expenseCount + 1 : ℕ) : ℚ)
      else 0) < _
    rw [if_pos (Nat.succ_pos _), if_pos hec]
    have hc0 : (0 : ℚ) < ((txns.foldl (statsStep s e) statsInit).expenseCount : ℚ) := by
      exact_mod_cast hec
    refine div_lt_div_of_pos_left hT' hc0 ?_
    push_cast
    linarith

/-- Witness for C10: a 100-expense plus a zero-amount transaction, both on
day 0 of a one-day window. -/
theorem zero_amount_goes_to_expense_bucket_witness :
    (⟨"z", 0, 0, ""⟩ : Transaction).amount = 0 ∧
    (fillTransactionStats ([⟨"g", -100, 0, ""⟩] ++ [⟨"z", 0, 0, ""⟩]) 0
        (nsPerDay - 1)).expenseCount =
      (fillTransactionStats [⟨"g", -100, 0, ""⟩] 0 (nsPerDay - 1)).expenseCount + 1 :=
  ⟨rfl,
    (zero_amount_goes_to_expense_bucket [⟨"g", -100, 0, ""⟩] ⟨"z", 0, 0, ""⟩ 0 (nsPerDay - 1)
      rfl (by decide) (by decide)).1⟩

/-- Cons unfolding of the in-window income total. -/
theorem totalIncomeIn_cons (t : Transaction) (ts : List Transaction) (s e : ℤ) :
    totalIncomeIn (t :: ts) s e =
      (if (s ≤ t.date ∧ t.date ≤ e) ∧ 0 < t.amount then t.amount else 0) +
        totalIncomeIn ts s e := by
  simp only [totalIncomeIn, List.filter_cons, inWindow, Bool.and_eq_true, Bool.not_eq_true',
    decide_eq_false_iff_not, decide_eq_true_eq, not_lt]
  by_cases h : (s ≤ t.date ∧ t.date ≤ e) ∧ 0 < t.amount
  · simp [h]
  · simp [h]

/-- Cons unfolding of the in-window expense total. -/
theorem totalExpenseIn_cons (t : Transaction) (ts : List Transaction) (s e : ℤ) :
    totalExpenseIn (t :: ts) s e =
      (if (s ≤ t.date ∧ t.date ≤ e) ∧ t.amount ≤ 0 then -t.amount else 0) +
        totalExpenseIn ts s e := by
  simp only [totalExpenseIn, List.filter_cons, inWindow, Bool.and_eq_true, Bool.not_eq_true',
    decide_eq_false_iff_not, decide_eq_true_eq, not_lt]
  by_cases h : (s ≤ t.date ∧ t.date ≤ e) ∧ t.amount ≤ 0
  · simp [h]
  · simp [h]

/-- The loop totals of `fillTransactionStats` are the in-window income and
expense sums. -/
theorem foldl_statsStep_totals (s e : ℤ) (txns : List Transaction) : ∀ acc : StatsAcc,
    (txns.foldl (statsStep s e) acc).totalIncome = acc.totalIncome + totalIncomeIn txns s e ∧
    (txns.foldl (statsStep s e) acc).totalExpense = acc.totalExpense + totalExpenseIn txns s e := by
  induction txns with
  | nil =>
    intro acc
    constructor <;> simp [totalIncomeIn, totalExpenseIn]
  | cons t ts ih =>
    intro acc
    obtain ⟨ih1, ih2⟩ := ih (statsStep s e acc t)
    have hstepI : (statsStep s e acc t).totalIncome =
        acc.totalIncome + (if (s ≤ t.date ∧ t.date ≤ e) ∧ 0 < t.amount then t.amount else 0) := by
      unfold statsStep
      by_cases h1 : t.date < s ∨ e < t.date
      · have hw : ¬ (s ≤ t.date ∧ t.date ≤ e) := by
          rintro ⟨ha, hb⟩
          rcases h1 with h | h <;> omega
        rw [if_pos h1,
          if_neg (show ¬ ((s ≤ t.date ∧ t.date ≤ e) ∧ 0 < t.amount) from fun hc => hw hc.1)]
        ring
      · have hw : s ≤ t.date ∧ t.date ≤ e :=
          ⟨le_of_not_lt fun hh => h1 (Or.inl hh), le_of_not_lt fun hh => h1 (Or.inr hh)⟩
        rw [if_neg h1]
        by_cases h2 : 0 < t.amount
        · rw [if_pos h2, if_pos (⟨hw, h2⟩ : (s ≤ t.date ∧ t.date ≤ e) ∧ 0 < t.amount)]
        · rw [if_neg h2,
            if_neg (show ¬ ((s ≤ t.date ∧ t.date ≤ e) ∧ 0 < t.amount) from fun hc => h2 hc.2)]
          dsimp only
          ring
    have hstepE : (statsStep s e acc t).totalExpense =
        acc.totalExpense +
          (if (s ≤ t.date ∧ t.date ≤ e) ∧ t.amount ≤ 0 then -t.amount else 0) := by
      unfold statsStep
      by_cases h1 : t.date < s ∨ e < t.date
      · have hw : ¬ (s ≤ t.date ∧ t.date ≤ e) := by
          rintro ⟨ha, hb⟩
          rcases h1 with h | h <;> omega
        rw [if_pos h1,
          if_neg (show ¬ ((s ≤ t.date ∧ t.date ≤ e) ∧ t.amount ≤ 0) from fun hc => hw hc.1)]
        ring
      · have hw : s ≤ t.date ∧ t.date ≤ e :=
          ⟨le_of_not_lt fun hh => h1 (Or.inl hh), le_of_not_lt fun hh => h1 (Or.inr hh)⟩
        rw [if_neg h1]
        by_cases h2 : 0 < t.amount
        · rw [if_pos h2,
            if_neg (show ¬ ((s ≤ t.date ∧ t.date ≤ e) ∧ t.amount ≤ 0) from
              fun hc => absurd h2 (not_lt.mpr hc.2))]
          dsimp only
          ring
        · rw [if_neg h2,
            if_pos (⟨hw, not_lt.mp h2⟩ : (s ≤ t.date ∧ t.date ≤ e) ∧ t.amount ≤ 0)]
    constructor
    · rw [List.foldl_cons, ih1, hstepI, totalIncomeIn_cons]
      ring
    · rw [List.foldl_cons, ih2, hstepE, totalExpenseIn_cons]
      ring

/-- `report.TotalIncome` is the in-window income sum. -/
theorem fillTransactionStats_totalIncome (txns : List Transaction) (s e : ℤ) :
    (fillTransactionStats txns s e).totalIncome = totalIncomeIn txns s e := by
  have h := (foldl_statsStep_totals s e txns statsInit).1
  show (txns.foldl (statsStep s e) statsInit).totalIncome = _
  rw [h]
  show (0 : ℚ) + _ = _
  rw [zero_add]

/-- `report.TotalExpenses` is the in-window expense sum. -/
theorem fillTransactionStats_totalExpenses (txns : List Transaction) (s e : ℤ) :
    (fillTransactionStats txns s e).totalExpenses = totalExpenseIn txns s e := by
  have h := (foldl_statsStep_totals s e txns statsInit).2
  show (txns.foldl (statsStep s e) statsInit).totalExpense = _
  rw [h]
  show (0 : ℚ) + _ = _
  rw [zero_add]

/-- The in-window transactions booked to category id `cid` by
`fillCategoryAnalytics` (expense_tracker.go:651-663): a transaction counts
only when its id has an entry in `categoryStats`. -/
def catTxns (txns : List Transaction) (s e : ℤ) (cid : String) : List Transaction :=
  txns.filter fun t => inWindow s e t && (t.categoryID == cid)

/-- `CategoryStats.Amount` for id `cid`: the signed in-window sum. -/
def catAmount (txns : List Transaction) (s e : ℤ) (cid : String) : ℚ :=
  ((catTxns txns s e cid).map (·.amount)).sum

/-- `CategoryStats.Count` for id `cid`. -/
def catCount (txns : List Transaction) (s e : ℤ) (cid : String) : ℕ :=
  (catTxns txns s e cid).length

/-- `categoryTypes[cid]` (expense_tracker.go:640-641): a Go map write per
list entry, so the last category with a given id wins; a missing id reads
as the zero value `""`. -/
def lastType (categories : List Category) (cid : String) : String :=
  ((categories.reverse.find? fun c => c.id == cid).map (·.type)).getD ""

/-- The key set of the `categoryStats` map, as a duplicate-free list (map
iteration order is irrelevant to the sums considered here). -/
def categoryIds (categories : List Category) : List String :=
  (categories.map (·.id)).dedup

/-- Ids classified as income (`categoryTypes[id] == "income"`,
expense_tracker.go:689, 711). -/
def incomeCatIds (categories : List Category) : List String :=
  (categoryIds categories).filter fun cid => lastType categories cid == "income"

/-- Ids classified as expense (the `else` of the income test). -/
def expenseCatIds (categories : List Category) : List String :=
  (categoryIds categories).filter fun cid => !(lastType categories cid == "income")

/-- Sum of `Amount` over `report.CategoryData.Income`: ids of income type
with `Count > 0` (expense_tracker.go:700-715); the Go sort is a permutation
and does not affect the sum. -/
def incomeListAmountSum (txns : List Transaction) (cats : List Category) (s e : ℤ) : ℚ :=
  (((incomeCatIds cats).filter fun cid => decide (0 < catCount txns s e cid)).map
    (catAmount txns s e)).sum

/-- Sum of `Amount` over `report.CategoryData.Expenses`. -/
def expenseListAmountSum (txns : List Transaction) (cats : List Category) (s e : ℤ) : ℚ :=
  (((expenseCatIds cats).filter fun cid => decide (0 < catCount txns s e cid)).map
    (catAmount txns s e)).sum

/-- Cons unfolding of a category's signed amount. -/
theorem catAmount_cons (t : Transaction) (ts : List Transaction) (s e : ℤ) (cid : String) :
    catAmount (t :: ts) s e cid =
      (if (s ≤ t.date ∧ t.date ≤ e) ∧ t.categoryID = cid then t.amount else 0) +
        catAmount ts s e cid := by
  simp only [catAmount, catTxns, List.filter_cons, inWindow, Bool.and_eq_true,
    Bool.not_eq_true', decide_eq_false_iff_not, decide_eq_true_eq, not_lt, beq_iff_eq]
  by_cases h : (s ≤ t.date ∧ t.date ≤ e) ∧ t.categoryID = cid
  · simp [h]
  · simp [h]

/-- Summing the per-category signed amounts over a finite id set recovers
the in-window sum of the amounts of transactions booked to those ids. -/
theorem sum_catAmount_over (s e : ℤ) (txns : List Transaction) : ∀ F : Finset String,
    (∑ cid ∈ F, catAmount txns s e cid) =
      ((txns.filter fun t => inWindow s e t && decide (t.categoryID ∈ F)).map
        (·.amount)).sum := by
  induction txns with
  | nil =>
    intro F
    simp [catAmount, catTxns]
  | cons t ts ih =>
    intro F
    have hrhs : (((t :: ts).filter fun t => inWindow s e t && decide (t.categoryID ∈ F)).map
        (·.amount)).sum =
        (if (s ≤ t.date ∧ t.date ≤ e) ∧ t.categoryID ∈ F then t.amount else 0) +
          ((ts.filter fun t => inWindow s e t && decide (t.categoryID ∈ F)).map
            (·.amount)).sum := by
      simp only [List.filter_cons, inWindow, Bool.and_eq_true, Bool.not_eq_true',
        decide_eq_false_iff_not, decide_eq_true_eq, not_lt]
      by_cases h : (s ≤ t.date ∧ t.date ≤ e) ∧ t.categoryID ∈ F
      · simp [h]
      · simp [h]
    calc (∑ cid ∈ F, catAmount (t :: ts) s e cid)
        = ∑ cid ∈ F, ((if (s ≤ t.date ∧ t.date ≤ e) ∧ t.categoryID = cid then t.amount else 0) +
            catAmount ts s e cid) := Finset.sum_congr rfl fun cid _ => catAmount_cons t ts s e cid
      _ = (∑ cid ∈ F, if (s ≤ t.date ∧ t.date ≤ e) ∧ t.categoryID = cid then t.amount else 0) +
            ∑ cid ∈ F, catAmount ts s e cid := Finset.sum_add_distrib
      _ = (if (s ≤ t.date ∧ t.date ≤ e) ∧ t.categoryID ∈ F then t.amount else 0) +
            ((ts.filter fun t => inWindow s e t && decide (t.categoryID ∈ F)).map
              (·.amount)).sum := by
          rw [ih F]
          congr 1
          by_cases hw : s ≤ t.date ∧ t.date ≤ e
          · have hcong : ∀ cid ∈ F,
                (if (s ≤ t.date ∧ t.date ≤ e) ∧ t.categoryID = cid then t.amount else 0) =
                  if t.categoryID = cid then t.amount else 0 := by
              intro cid _
              by_cases hc : t.categoryID = cid <;> simp [hc, hw]
            rw [Finset.sum_congr rfl hcong,
              Finset.sum_ite_eq F t.categoryID fun _ => t.amount]
            by_cases hmem : t.categoryID ∈ F <;> simp [hmem, hw]
          · have hz : (∑ cid ∈ F,
                if (s ≤ t.date ∧ t.date ≤ e) ∧ t.categoryID = cid then t.amount else 0) = 0 :=
              Finset.sum_eq_zero fun cid _ => if_neg fun hc => hw hc.1
            rw [hz, if_neg fun hc => hw hc.1]
      _ = (((t :: ts).filter fun t => inWindow s e t && decide (t.categoryID ∈ F)).map
            (·.amount)).sum := hrhs.symm

/-- A category with no booked transaction has amount 0. -/
theorem catAmount_eq_zero_of_count (txns : List Transaction) (s e : ℤ) (cid : String)
    (h : catCount txns s e cid = 0) : catAmount txns s e cid = 0 := by
  unfold catAmount
  unfold catCount at h
  rw [List.length_eq_zero] at h
  rw [h]
  rfl

/-- Dropping list entries on which the mapped value is 0 keeps the sum. -/
theorem sum_map_filter_of_zero (p : String → Bool) (f : String → ℚ) :
    ∀ L : List String, (∀ x ∈ L, p x = false → f x = 0) →
      ((L.filter p).map f).sum = (L.map f).sum := by
  intro L
  induction L with
  | nil =>
    intro _
    rfl
  | cons x xs ih =>
    intro h
    by_cases hp : p x = true
    · simp only [List.filter_cons, hp, if_true, List.map_cons, List.sum_cons]
      rw [ih fun y hy hz => h y (List.mem_cons_of_mem x hy) hz]
    · have hx : p x = false := by
        revert hp
        cases p x <;> simp
      simp only [List.filter_cons, hx, Bool.false_eq_true, if_false, List.map_cons,
        List.sum_cons, h x (List.mem_cons_self x xs) hx, zero_add]
      exact ih fun y hy hz => h y (List.mem_cons_of_mem x hy) hz

/-- Negating each amount negates the sum. -/
theorem sum_map_neg_amount : ∀ l : List Transaction,
    ((l.map fun t => -t.amount).sum) = -((l.map (·.amount)).sum) := by
  intro l
  induction l with
  | nil => simp
  | cons t ts ih =>
    simp [ih]
    ring

/-- Membership in the income id list. -/
theorem mem_incomeCatIds (cats : List Category) (cid : String) :
    cid ∈ incomeCatIds cats ↔ cid ∈ categoryIds cats ∧ lastType cats cid = "income" := by
  simp [incomeCatIds, List.mem_filter]

/-- Membership in the expense id list. -/
theorem mem_expenseCatIds (cats : List Category) (cid : String) :
    cid ∈ expenseCatIds cats ↔ cid ∈ categoryIds cats ∧ ¬ lastType cats cid = "income" := by
  simp [expenseCatIds, List.mem_filter]

/-- C9 counterexample: the claim fails twice.  With a known expense
category holding a single -100 transaction the `Expenses` amounts sum to
-100 (signed), not the +100 of `report.TotalExpenses`; and with a
transaction whose category id is not in the category list the `Expenses`
list is empty (sum 0) while `report.TotalExpenses` is still 100. -/
theorem category_sums_counterexample :
    expenseListAmountSum [⟨"f", -100, 0, ""⟩] [⟨"f", "Food", "expense"⟩] 0 (nsPerDay - 1) =
      -100 ∧
    (fillTransactionStats [⟨"f", -100, 0, ""⟩] 0 (nsPerDay - 1)).totalExpenses = 100 ∧
    ((-100 : ℚ) = 100 → False) ∧
    expenseListAmountSum [⟨"zzz", -100, 0, ""⟩] [] 0 (nsPerDay - 1) = 0 ∧
    (fillTransactionStats [⟨"zzz", -100, 0, ""⟩] 0 (nsPerDay - 1)).totalExpenses = 100 ∧
    ((0 : ℚ) = 100 → False) := by
  refine ⟨?_, ?_, by norm_num, ?_, ?_, by norm_num⟩
  · have hl : ((expenseCatIds [⟨"f", "Food", "expense"⟩]).filter fun cid =>
        decide (0 < catCount [⟨"f", -100, 0, ""⟩] 0 (nsPerDay - 1) cid)) = ["f"] := by
      decide
    have hct : catTxns [⟨"f", -100, 0, ""⟩] 0 (nsPerDay - 1) "f" = [⟨"f", -100, 0, ""⟩] := by
      decide
    unfold expenseListAmountSum
    rw [hl]
    norm_num [catAmount, hct]
  · rw [fillTransactionStats_totalExpenses]
    norm_num [totalExpenseIn, inWindow, nsPerDay, List.filter_cons]
  · rfl
  · rw [fillTransactionStats_totalExpenses]
    norm_num [totalExpenseIn, inWindow, nsPerDay, List.filter_cons]

/-- C9 amended: when every transaction's category id appears in the
category list and signs agree with the category kind (positive iff the
kind is `income`), the `Income` amounts sum to `report.TotalIncome` and
the `Expenses` amounts — being signed, hence nonpositive — sum to the
**negation** of `report.TotalExpenses`; without those hypotheses the
counterexample shows both equalities fail. -/
theorem category_sums_amended (txns : List Transaction) (cats : List Category) (s e : ℤ)
    (hknown : ∀ t ∈ txns, ∃ c ∈ cats, c.id = t.categoryID)
    (hsign : ∀ t ∈ txns, (0 < t.amount ↔ lastType cats t.categoryID = "income")) :
    incomeListAmountSum txns cats s e = (fillTransactionStats txns s e).totalIncome ∧
    expenseListAmountSum txns cats s e = -(fillTransactionStats txns s e).totalExpenses := by
  have hidmem : ∀ t ∈ txns, t.categoryID ∈ categoryIds cats := by
    intro t ht
    obtain ⟨c, hc, hcid⟩ := hknown t ht
    unfold categoryIds
    rw [List.mem_dedup]
    exact List.mem_map.mpr ⟨c, hc, hcid⟩
  constructor
  · have hnd : (incomeCatIds cats).Nodup := (List.nodup_dedup _).filter _
    have h1 : incomeListAmountSum txns cats s e =
        ((incomeCatIds cats).map (catAmount txns s e)).sum := by
      unfold incomeListAmountSum
      refine sum_map_filter_of_zero _ _ _ ?_
      intro cid _ hz
      refine catAmount_eq_zero_of_count txns s e cid ?_
      have := of_decide_eq_false hz
      omega
    have h2 : ((incomeCatIds cats).map (catAmount txns s e)).sum =
        ∑ cid ∈ (incomeCatIds cats).toFinset, catAmount txns s e cid :=
      (List.sum_toFinset _ hnd).symm
    rw [h1, h2, sum_catAmount_over s e txns, fillTransactionStats_totalIncome]
    unfold totalIncomeIn
    congr 1
    congr 1
    refine List.filter_congr ?_
    intro t ht
    have hiff : (t.categoryID ∈ (incomeCatIds cats).toFinset) ↔ 0 < t.amount := by
      rw [List.mem_toFinset, mem_incomeCatIds]
      constructor
      · rintro ⟨_, hl⟩
        exact (hsign t ht).mpr hl
      · intro hp
        exact ⟨hidmem t ht, (hsign t ht).mp hp⟩
    simp only [hiff]
  · have hnd : (expenseCatIds cats).Nodup := (List.nodup_dedup _).filter _
    have h1 : expenseListAmountSum txns cats s e =
        ((expenseCatIds cats).map (catAmount txns s e)).sum := by
      unfold expenseListAmountSum
      refine sum_map_filter_of_zero _ _ _ ?_
      intro cid _ hz
      refine catAmount_eq_zero_of_count txns s e cid ?_
      have := of_decide_eq_false hz
      omega
    have h2 : ((expenseCatIds cats).map (catAmount txns s e)).sum =
        ∑ cid ∈ (expenseCatIds cats).toFinset, catAmount txns s e cid :=
      (List.sum_toFinset _ hnd).symm
    rw [h1, h2, sum_catAmount_over s e txns, fillTransactionStats_totalExpenses]
    unfold totalExpenseIn
    rw [sum_map_neg_amount, neg_neg]
    congr 1
    congr 1
    refine List.filter_congr ?_
    intro t ht
    have hiff : (t.categoryID ∈ (expenseCatIds cats).toFinset) ↔ ¬ 0 < t.amount := by
      rw [List.mem_toFinset, mem_expenseCatIds]
      constructor
      · rintro ⟨_, hl⟩ hp
        exact hl ((hsign t ht).mp hp)
      · intro hp
        exact ⟨hidmem t ht, fun hl => hp ((hsign t ht).mpr hl)⟩
    simp only [hiff, decide_not]

/-- Witness for C9's amended theorem: one income transaction booked to a
known income category. -/
theorem category_sums_amended_witness :
    incomeListAmountSum [⟨"s", 50, 0, ""⟩] [⟨"s", "Salary", "income"⟩] 0 (nsPerDay - 1) =
      (fillTransactionStats [⟨"s", 50, 0, ""⟩] 0 (nsPerDay - 1)).totalIncome :=
  (category_sums_amended [⟨"s", 50, 0, ""⟩] [⟨"s", "Salary", "income"⟩] 0 (nsPerDay - 1)
    (by decide) (by decide)).1

/-- `model.CategoryChange`; `ChangePercent` is a raw
`calculateTrendPercent` result, hence a `TrendVal`. -/
structure CategoryChange where
  categoryID : String
  name : String
  changeValue : ℚ
  changePercent : TrendVal
deriving DecidableEq

/-- Go zero value of `model.CategoryChange`. -/
def emptyChange : CategoryChange := ⟨"", "", 0, .fin 0⟩

/-- `model.CategoryChanges`: the four singleton records. -/
structure CategoryChanges where
  fastestGrowingExpense : CategoryChange
  fastestGrowingIncome : CategoryChange
  largestDropExpense : CategoryChange
  largestDropIncome : CategoryChange
deriving DecidableEq

/-- The percent figure `findCategoryChanges` computes for a category entry
`(id, currentAmount)` (expense_tracker.go:903-905): the percent change of
the **difference** `currentAmount - prevAmount` against `prevAmount` — not
of `currentAmount` itself. -/
def cpOf (prev : String → ℚ) (c : String × ℚ) : TrendVal :=
  calculateTrendPercent (c.2 - prev c.1) (prev c.1)

/-- The `model.CategoryChange` record built for an entry
(expense_tracker.go:907-912). -/
def mkChange (prev : String → ℚ) (names : String → String) (c : String × ℚ) : CategoryChange :=
  ⟨c.1, names c.1, c.2 - prev c.1, cpOf prev c⟩

/-- One iteration of the `findCategoryChanges` loop
(expense_tracker.go:901-928): skip when `prevAmount == 0`, classify by the
sign of the current amount (`stats.Amount >= 0` → income), then the
`if/else if` growth/drop updates. -/
def changesStep (prev : String → ℚ) (names : String → String)
    (st : CategoryChanges) (c : String × ℚ) : CategoryChanges :=
  if prev c.1 = 0 then st
  else
    if 0 ≤ c.2 then
      if st.fastestGrowingIncome.changePercent.ltb (cpOf prev c) then
        { st with fastestGrowingIncome := mkChange prev names c }
      else if (cpOf prev c).ltb st.largestDropIncome.changePercent then
        { st with largestDropIncome := mkChange prev names c }
      else st
    else
      if st.fastestGrowingExpense.changePercent.ltb (cpOf prev c) then
        { st with fastestGrowingExpense := mkChange prev names c }
      else if (cpOf prev c).ltb st.largestDropExpense.changePercent then
        { st with largestDropExpense := mkChange prev names c }
      else st

/-- `findCategoryChanges` (expense_tracker.go:898-934), over the
`currentStats` entries in map-iteration order (taken as a parameter, since
Go map order is unspecified) with `prevAmounts` and `categoryNames` as
lookup functions defaulting to Go zero values. -/
def findCategoryChanges (cur : List (String × ℚ)) (prev : String → ℚ)
    (names : String → String) : CategoryChanges :=
  cur.foldl (changesStep prev names) ⟨emptyChange, emptyChange, emptyChange, emptyChange⟩

/-- The entries the loop actually considers on the income side:
nonzero previous amount and nonnegative current amount. -/
def incomeEligible (cur : List (String × ℚ)) (prev : String → ℚ) : List (String × ℚ) :=
  cur.filter fun c => !decide (prev c.1 = 0) && decide (0 ≤ c.2)

/-- The entries the loop considers on the expense side. -/
def expenseEligible (cur : List (String × ℚ)) (prev : String → ℚ) : List (String × ℚ) :=
  cur.filter fun c => !decide (prev c.1 = 0) && !decide (0 ≤ c.2)

/-- Go `math.Max`-style pick on percents (ties keep the left/first). -/
def TrendVal.maxv (a b : TrendVal) : TrendVal := if a.ltb b then b else a

/-- Go `math.Min`-style pick on percents (ties keep the left/first). -/
def TrendVal.minv (a b : TrendVal) : TrendVal := if b.ltb a then b else a

/-- C8 counterexample: one income category with previous amount 100 and
current amount 200.  The claim says `FastestGrowingIncome` is the category
achieving the maximal `percentChange(current, previous)` — here the only
eligible category, with `percentChange(200, 100) = 100`.  But the code
computes `percentChange(200 - 100, 100) = 0`, which does not beat the
empty record's 0, so the empty record (id `""`) is returned instead. -/
theorem findCategoryChanges_counterexample :
    calculateTrendPercent 200 100 = .fin 100 ∧
    (findCategoryChanges [("c1", 200)] (fun cid => if cid = "c1" then 100 else 0)
      (fun _ => "Salary")).fastestGrowingIncome = emptyChange ∧
    emptyChange.categoryID ≠ "c1" := by
  have h100 : |(100 : ℚ)| = 100 := abs_of_pos (by norm_num)
  have h200 : |(200 : ℚ)| = 200 := abs_of_pos (by norm_num)
  have hctp0 : calculateTrendPercent 100 100 = .fin 0 := by
    norm_num [calculateTrendPercent, h100]
  refine ⟨?_, ?_, by decide⟩
  · norm_num [calculateTrendPercent, h100, h200]
  · norm_num [findCategoryChanges, changesStep, cpOf, TrendVal.ltb, hctp0, emptyChange]

/-- Shape of a growth tracker: a nonnegative finite percent (it starts at
the zero record's 0 and only ever increases). -/
def GrowOk (v : TrendVal) : Prop := ∃ q, 0 ≤ q ∧ v = .fin q

/-- Shape of a drop tracker: `-Inf` or a nonpositive finite percent. -/
def DropOk (v : TrendVal) : Prop := v = .negInf ∨ ∃ q, q ≤ 0 ∧ v = .fin q

/-- A percent beating a growth tracker is itself a valid growth tracker. -/
theorem growOk_of_ltb (g cp : TrendVal) (hg : GrowOk g) (h : g.ltb cp = true) : GrowOk cp := by
  obtain ⟨qg, hqg, rfl⟩ := hg
  cases cp with
  | negInf => simp [TrendVal.ltb] at h
  | fin qc =>
    have hlt : qg < qc := by simpa [TrendVal.ltb] using h
    exact ⟨qc, by linarith, rfl⟩

/-- A percent undercutting a drop tracker is itself a valid drop tracker. -/
theorem dropOk_of_ltb (d cp : TrendVal) (hd : DropOk d) (h : cp.ltb d = true) : DropOk cp := by
  rcases hd with rfl | ⟨qd, hqd, rfl⟩
  · cases cp <;> simp [TrendVal.ltb] at h
  · cases cp with
    | negInf => exact Or.inl rfl
    | fin qc =>
      have hlt : qc < qd := by simpa [TrendVal.ltb] using h
      exact Or.inr ⟨qc, by linarith, rfl⟩

/-- A percent strictly above the growth tracker cannot also be strictly
below the drop tracker (growth sits at ≥ 0, drop at ≤ 0), so the `else if`
in the loop never drops an update. -/
theorem growth_drop_incompat (g d cp : TrendVal) (hg : GrowOk g) (hd : DropOk d)
    (h : g.ltb cp = true) : cp.ltb d = false := by
  obtain ⟨qg, hqg, rfl⟩ := hg
  cases cp with
  | negInf => simp [TrendVal.ltb] at h
  | fin qc =>
    have hlt : qg < qc := by simpa [TrendVal.ltb] using h
    rcases hd with rfl | ⟨qd, hqd, rfl⟩
    · simp [TrendVal.ltb]
    · simp only [TrendVal.ltb, decide_eq_false_iff_not]
      intro hcd
      linarith

/-- Full characterization of the `findCategoryChanges` fold: each tracker
field carries the running `maxv`/`minv` of the eligible percents on its
side, and is either the record it started as or the record of one of the
eligible entries. -/
theorem foldl_changesStep_spec (prev : String → ℚ) (names : String → String) :
    ∀ (cur : List (String × ℚ)) (st : CategoryChanges),
    GrowOk st.fastestGrowingIncome.changePercent →
    DropOk st.largestDropIncome.changePercent →
    GrowOk st.fastestGrowingExpense.changePercent →
    DropOk st.largestDropExpense.changePercent →
    ((cur.foldl (changesStep prev names) st).fastestGrowingIncome.changePercent =
        ((incomeEligible cur prev).map (cpOf prev)).foldl TrendVal.maxv
          st.fastestGrowingIncome.changePercent ∧
      (cur.foldl (changesStep prev names) st).largestDropIncome.changePercent =
        ((incomeEligible cur prev).map (cpOf prev)).foldl TrendVal.minv
          st.largestDropIncome.changePercent ∧
      (cur.foldl (changesStep prev names) st).fastestGrowingExpense.changePercent =
        ((expenseEligible cur prev).map (cpOf prev)).foldl TrendVal.maxv
          st.fastestGrowingExpense.changePercent ∧
      (cur.foldl (changesStep prev names) st).largestDropExpense.changePercent =
        ((expenseEligible cur prev).map (cpOf prev)).foldl TrendVal.minv
          st.largestDropExpense.changePercent) ∧
    (((cur.foldl (changesStep prev names) st).fastestGrowingIncome =
        st.fastestGrowingIncome ∨
      ∃ c ∈ incomeEligible cur prev,
        (cur.foldl (changesStep prev names) st).fastestGrowingIncome =
          mkChange prev names c) ∧
      ((cur.foldl (changesStep prev names) st).largestDropIncome = st.largestDropIncome ∨
      ∃ c ∈ incomeEligible cur prev,
        (cur.foldl (changesStep prev names) st).largestDropIncome = mkChange prev names c) ∧
      ((cur.foldl (changesStep prev names) st).fastestGrowingExpense =
        st.fastestGrowingExpense ∨
      ∃ c ∈ expenseEligible cur prev,
        (cur.foldl (changesStep prev names) st).fastestGrowingExpense =
          mkChange prev names c) ∧
      ((cur.foldl (changesStep prev names) st).largestDropExpense = st.largestDropExpense ∨
      ∃ c ∈ expenseEligible cur prev,
        (cur.foldl (changesStep prev names) st).largestDropExpense = mkChange prev names c)) := by
  intro cur
  induction cur with
  | nil =>
    intro st _ _ _ _
    exact ⟨⟨rfl, rfl, rfl, rfl⟩, Or.inl rfl, Or.inl rfl, Or.inl rfl, Or.inl rfl⟩
  | cons c cs ih =>
    intro st h1 h2 h3 h4
    by_cases hz : prev c.1 = 0
    · have hst : changesStep prev names st c = st := by
        unfold changesStep
        rw [if_pos hz]
      have hie : incomeEligible (c :: cs) prev = incomeEligible cs prev := by
        simp [incomeEligible, List.filter_cons, hz]
      have hee : expenseEligible (c :: cs) prev = expenseEligible cs prev := by
        simp [expenseEligible, List.filter_cons, hz]
      rw [List.foldl_cons, hst, hie, hee]
      exact ih st h1 h2 h3 h4
    · by_cases hpos : 0 ≤ c.2
      · have hie : incomeEligible (c :: cs) prev = c :: incomeEligible cs prev := by
          simp [incomeEligible, List.filter_cons, hz, hpos]
        have hee : expenseEligible (c :: cs) prev = expenseEligible cs prev := by
          simp [expenseEligible, List.filter_cons, hz, hpos]
        by_cases hgt : st.fastestGrowingIncome.changePercent.ltb (cpOf prev c) = true
        · have hst : changesStep prev names st c =
              { st with fastestGrowingIncome := mkChange prev names c } := by
            unfold changesStep
            rw [if_neg hz, if_pos hpos, if_pos hgt]
          have hmax : TrendVal.maxv st.fastestGrowingIncome.changePercent (cpOf prev c) =
              cpOf prev c := by
            unfold TrendVal.maxv
            rw [if_pos hgt]
          have hnd : (cpOf prev c).ltb st.largestDropIncome.changePercent = false :=
            growth_drop_incompat _ _ _ h1 h2 hgt
          have hmin : TrendVal.minv st.largestDropIncome.changePercent (cpOf prev c) =
              st.largestDropIncome.changePercent := by
            unfold TrendVal.minv
            rw [hnd]
            rfl
          obtain ⟨⟨e1, e2, e3, e4⟩, w1, w2, w3, w4⟩ :=
            ih { st with fastestGrowingIncome := mkChange prev names c }
              (growOk_of_ltb _ _ h1 hgt) h2 h3 h4
          rw [List.foldl_cons, hst, hie, hee, List.map_cons, List.foldl_cons, List.foldl_cons,
            hmax, hmin]
          refine ⟨⟨e1, e2, e3, e4⟩, ?_, ?_, ?_, ?_⟩
          · rcases w1 with h | ⟨x, hx, hxe⟩
            · exact Or.inr ⟨c, List.mem_cons_self _ _, h⟩
            · exact Or.inr ⟨x, List.mem_cons_of_mem _ hx, hxe⟩
          · rcases w2 with h | ⟨x, hx, hxe⟩
            · exact Or.inl h
            · exact Or.inr ⟨x, List.mem_cons_of_mem _ hx, hxe⟩
          · exact w3
          · exact w4
        · by_cases hdt : (cpOf prev c).ltb st.largestDropIncome.changePercent = true
          · have hst : changesStep prev names st c =
                { st with largestDropIncome := mkChange prev names c } := by
              unfold changesStep
              rw [if_neg hz, if_pos hpos, if_neg hgt, if_pos hdt]
            have hmax : TrendVal.maxv st.fastestGrowingIncome.changePercent (cpOf prev c) =
                st.fastestGrowingIncome.changePercent := by
              unfold TrendVal.maxv
              rw [if_neg hgt]
            have hmin : TrendVal.minv st.largestDropIncome.changePercent (cpOf prev c) =
                cpOf prev c := by
              unfold TrendVal.minv
              rw [if_pos hdt]
            obtain ⟨⟨e1, e2, e3, e4⟩, w1, w2, w3, w4⟩ :=
              ih { st with largestDropIncome := mkChange prev names c }
                h1 (dropOk_of_ltb _ _ h2 hdt) h3 h4
            rw [List.foldl_cons, hst, hie, hee, List.map_cons, List.foldl_cons, List.foldl_cons,
              hmax, hmin]
            refine ⟨⟨e1, e2, e3, e4⟩, ?_, ?_, ?_, ?_⟩
            · rcases w1 with h | ⟨x, hx, hxe⟩
              · exact Or.inl h
              · exact Or.inr ⟨x, List.mem_cons_of_mem _ hx, hxe⟩
            · rcases w2 with h | ⟨x, hx, hxe⟩
              · exact Or.inr ⟨c, List.mem_cons_self _ _, h⟩
              · exact Or.inr ⟨x, List.mem_cons_of_mem _ hx, hxe⟩
            · exact w3
            · exact w4
          · have hst : changesStep prev names st c = st := by
              unfold changesStep
              rw [if_neg hz, if_pos hpos, if_neg hgt, if_neg hdt]
            have hmax : TrendVal.maxv st.fastestGrowingIncome.changePercent (cpOf prev c) =
                st.fastestGrowingIncome.changePercent := by
              unfold TrendVal.maxv
              rw [if_neg hgt]
            have hmin : TrendVal.minv st.largestDropIncome.changePercent (cpOf prev c) =
                st.largestDropIncome.changePercent := by
              unfold TrendVal.minv
              rw [if_neg hdt]
            obtain ⟨⟨e1, e2, e3, e4⟩, w1, w2, w3, w4⟩ := ih st h1 h2 h3 h4
            rw [List.foldl_cons, hst, hie, hee, List.map_cons, List.foldl_cons, List.foldl_cons,
              hmax, hmin]
            refine ⟨⟨e1, e2, e3, e4⟩, ?_, ?_, ?_, ?_⟩
            · rcases w1 with h | ⟨x, hx, hxe⟩
              · exact Or.inl h
              · exact Or.inr ⟨x, List.mem_cons_of_mem _ hx, hxe⟩
            · rcases w2 with h | ⟨x, hx, hxe⟩
              · exact Or.inl h
              · exact Or.inr ⟨x, List.mem_cons_of_mem _ hx, hxe⟩
            · exact w3
            · exact w4
      · have hie : incomeEligible (c :: cs) prev = incomeEligible cs prev := by
          simp [incomeEligible, List.filter_cons, hz, hpos]
        have hee : expenseEligible (c :: cs) prev = c :: expenseEligible cs prev := by
          simp [expenseEligible, List.filter_cons, hz, hpos]
        by_cases hgt : st.fastestGrowingExpense.changePercent.ltb (cpOf prev c) = true
        · have hst : changesStep prev names st c =
              { st with fastestGrowingExpense := mkChange prev names c } := by
            unfold changesStep
            rw [if_neg hz, if_neg hpos, if_pos hgt]
          have hmax : TrendVal.maxv st.fastestGrowingExpense.changePercent (cpOf prev c) =
              cpOf prev c := by
            unfold TrendVal.maxv
            rw [if_pos hgt]
          have hnd : (cpOf prev c).ltb st.largestDropExpense.changePercent = false :=
            growth_drop_incompat _ _ _ h3 h4 hgt
          have hmin : TrendVal.minv st.largestDropExpense.changePercent (cpOf prev c) =
              st.largestDropExpense.changePercent := by
            unfold TrendVal.minv
            rw [hnd]
            rfl
          obtain ⟨⟨e1, e2, e3, e4⟩, w1, w2, w3, w4⟩ :=
            ih { st with fastestGrowingExpense := mkChange prev names c }
              h1 h2 (growOk_of_ltb _ _ h3 hgt) h4
          rw [List.foldl_cons, hst, hie, hee, List.map_cons, List.foldl_cons, List.foldl_cons,
            hmax, hmin]
          refine ⟨⟨e1, e2, e3, e4⟩, ?_, ?_, ?_, ?_⟩
          · exact w1
          · exact w2
          · rcases w3 with h | ⟨x, hx, hxe⟩
            · exact Or.inr ⟨c, List.mem_cons_self _ _, h⟩
            · exact Or.inr ⟨x, List.mem_cons_of_mem _ hx, hxe⟩
          · rcases w4 with h | ⟨x, hx, hxe⟩
            · exact Or.inl h
            · exact Or.inr ⟨x, List.mem_cons_of_mem _ hx, hxe⟩
        · by_cases hdt : (cpOf prev c).ltb st.largestDropExpense.changePercent = true
          · have hst : changesStep prev names st c =
                { st with largestDropExpense := mkChange prev names c } := by
              unfold changesStep
              rw [if_neg hz, if_neg hpos, if_neg hgt, if_pos hdt]
            have hmax : TrendVal.maxv st.fastestGrowingExpense.changePercent (cpOf prev c) =
                st.fastestGrowingExpense.changePercent := by
              unfold TrendVal.maxv
              rw [if_neg hgt]
            have hmin : TrendVal.minv st.largestDropExpense.changePercent (cpOf prev c) =
                cpOf prev c := by
              unfold TrendVal.minv
              rw [if_pos hdt]
            obtain ⟨⟨e1, e2, e3, e4⟩, w1, w2, w3, w4⟩ :=
              ih { st with largestDropExpense := mkChange prev names c }
                h1 h2 h3 (dropOk_of_ltb _ _ h4 hdt)
            rw [List.foldl_cons, hst, hie, hee, List.map_cons, List.foldl_cons, List.foldl_cons,
              hmax, hmin]
            refine ⟨⟨e1, e2, e3, e4⟩, ?_, ?_, ?_, ?_⟩
            · exact w1
            · exact w2
            · rcases w3 with h | ⟨x, hx, hxe⟩
              · exact Or.inl h
              · exact Or.inr ⟨x, List.mem_cons_of_mem _ hx, hxe⟩
            · rcases w4 with h | ⟨x, hx, hxe⟩
              · exact Or.inr ⟨c, List.mem_cons_self _ _, h⟩
              · exact Or.inr ⟨x, List.mem_cons_of_mem _ hx, hxe⟩
          · have hst : changesStep prev names st c = st := by
              unfold changesStep
              rw [if_neg hz, if_neg hpos, if_neg hgt, if_neg hdt]
            have hmax : TrendVal.maxv st.fastestGrowingExpense.changePercent (cpOf prev c) =
                st.fastestGrowingExpense.changePercent := by
              unfold TrendVal.maxv
              rw [if_neg hgt]
            have hmin : TrendVal.minv st.largestDropExpense.changePercent (cpOf prev c) =
                st.largestDropExpense.changePercent := by
              unfold TrendVal.minv
              rw [if_neg hdt]
            obtain ⟨⟨e1, e2, e3, e4⟩, w1, w2, w3, w4⟩ := ih st h1 h2 h3 h4
            rw [List.foldl_cons, hst, hie, hee, List.map_cons, List.foldl_cons, List.foldl_cons,
              hmax, hmin]
            refine ⟨⟨e1, e2, e3, e4⟩, ?_, ?_, ?_, ?_⟩
            · exact w1
            · exact w2
            · rcases w3 with h | ⟨x, hx, hxe⟩
              · exact Or.inl h
              · exact Or.inr ⟨x, List.mem_cons_of_mem _ hx, hxe⟩
            · rcases w4 with h | ⟨x, hx, hxe⟩
              · exact Or.inl h
              · exact Or.inr ⟨x, List.mem_cons_of_mem _ hx, hxe⟩

/-- C8 amended: the percent `findCategoryChanges` ranks by is
`percentChange(currentAmount - previousAmount, previousAmount)` (the delta,
not the current amount), eligibility is nonzero previous amount with the
income/expense split decided by the **sign of the current amount**, and each
field holds the running max (resp. min) of those percents seeded with the
zero record's 0 — so a field stays the empty record unless some eligible
percent strictly exceeds (resp. undercuts) 0; the returned record is always
either the empty record or that of an eligible category achieving the
tracked extremum. -/
theorem findCategoryChanges_amended (cur : List (String × ℚ)) (prev : String → ℚ)
    (names : String → String) :
    ((findCategoryChanges cur prev names).fastestGrowingIncome.changePercent =
        ((incomeEligible cur prev).map (cpOf prev)).foldl TrendVal.maxv (.fin 0) ∧
      (findCategoryChanges cur prev names).largestDropIncome.changePercent =
        ((incomeEligible cur prev).map (cpOf prev)).foldl TrendVal.minv (.fin 0) ∧
      (findCategoryChanges cur prev names).fastestGrowingExpense.changePercent =
        ((expenseEligible cur prev).map (cpOf prev)).foldl TrendVal.maxv (.fin 0) ∧
      (findCategoryChanges cur prev names).largestDropExpense.changePercent =
        ((expenseEligible cur prev).map (cpOf prev)).foldl TrendVal.minv (.fin 0)) ∧
    (((findCategoryChanges cur prev names).fastestGrowingIncome = emptyChange ∨
      ∃ c ∈ incomeEligible cur prev,
        (findCategoryChanges cur prev names).fastestGrowingIncome = mkChange prev names c) ∧
      ((findCategoryChanges cur prev names).largestDropIncome = emptyChange ∨
      ∃ c ∈ incomeEligible cur prev,
        (findCategoryChanges cur prev names).largestDropIncome = mkChange prev names c) ∧
      ((findCategoryChanges cur prev names).fastestGrowingExpense = emptyChange ∨
      ∃ c ∈ expenseEligible cur prev,
        (findCategoryChanges cur prev names).fastestGrowingExpense = mkChange prev names c) ∧
      ((findCategoryChanges cur prev names).largestDropExpense = emptyChange ∨
      ∃ c ∈ expenseEligible cur prev,
        (findCategoryChanges cur prev names).largestDropExpense = mkChange prev names c)) :=
  foldl_changesStep_spec prev names cur ⟨emptyChange, emptyChange, emptyChange, emptyChange⟩
    ⟨0, le_refl 0, rfl⟩ (Or.inr ⟨0, le_refl 0, rfl⟩)
    ⟨0, le_refl 0, rfl⟩ (Or.inr ⟨0, le_refl 0, rfl⟩)

end FinBot
